import Mathlib

/-!
Verification of the heuristic "AI" analyzer core and the persistence-facing
handlers of the messaging backend.  String-processing primitives mirror the
JavaScript semantics actually used by the handlers (ASCII lowercasing,
`\b`-bounded keyword regexes, substring containment, global literal
replacement).  Numeric computation is modelled over `ℚ`; where the source's
IEEE-754 double arithmetic can differ from exact rational arithmetic — the
meeting-suggestion pipeline, whose loop-break test `0.7 - 0.2 < 0.5` holds in
doubles but not in exact arithmetic — every operation is composed with `fl`,
the exact round-to-nearest-even binary64 rounding on `ℚ`.  The remaining
handlers' comparisons (length thresholds, integer counts scaled by small
decimals against well-separated thresholds) have the same outcome in either
arithmetic.
-/

namespace ChatApp

/-! ### String primitives -/

/-- ASCII lower-casing of a character, as `String.prototype.toLowerCase`
behaves on the ASCII range used by every keyword table in the source. -/
def lowerChar (c : Char) : Char :=
  if 'A' ≤ c ∧ c ≤ 'Z' then Char.ofNat (c.toNat + 32) else c

/-- Lower-case a string character-wise. -/
def strLower (s : String) : String :=
  String.mk (s.toList.map lowerChar)

/-- A JavaScript `\w` word character: letter, digit or underscore (ASCII). -/
def isWordChar (c : Char) : Bool :=
  (('a' ≤ c ∧ c ≤ 'z') ∨ ('A' ≤ c ∧ c ≤ 'Z') ∨ ('0' ≤ c ∧ c ≤ '9') ∨ c = '_')

/-- Whitespace as matched by `\s` for the inputs the handlers deal with. -/
def isWS (c : Char) : Bool :=
  c = ' ' ∨ c = '\t' ∨ c = '\n' ∨ c = '\x0d'

/-- There is a word boundary (`\b`) in front of position `i` of `s`. -/
def boundaryBefore (s : List Char) (i : Nat) : Bool :=
  match i with
  | 0 => true
  | Nat.succ j =>
    match s.get? j with
    | some c => !(isWordChar c)
    | none => true

/-- There is a word boundary (`\b`) after position `i` (exclusive) of `s`. -/
def boundaryAfter (s : List Char) (i : Nat) : Bool :=
  match s.get? i with
  | some c => !(isWordChar c)
  | none => true

/-- `kw` occurs in `s` delimited by `\b` word boundaries on both sides,
i.e. the test `/\bkw\b/.test(s)` succeeds. -/
def containsWord (kw : String) (s : String) : Bool :=
  let ks := kw.toList
  let ss := s.toList
  (List.range (ss.length + 1)).any fun i =>
    List.isPrefixOf ks (ss.drop i) && boundaryBefore ss i &&
      boundaryAfter ss (i + ks.length)

/-- Some keyword of `kws` occurs `\b`-bounded in `s`. -/
def anyWord (kws : List String) (s : String) : Bool :=
  kws.any fun k => containsWord k s

/-- Plain substring containment, the semantics of `String.prototype.includes`. -/
def containsSubstr (s : String) (sub : String) : Bool :=
  let ks := sub.toList
  let ss := s.toList
  (List.range (ss.length + 1)).any fun i => List.isPrefixOf ks (ss.drop i)

/-- The character `c` occurs in `s`. -/
def containsChar (s : String) (c : Char) : Bool :=
  s.toList.any fun d => d = c

/-! ### Tone detection (`detectTone`, `ai_chat_completion.ts`) -/

/-- Keywords of the professional-tone rule. -/
def professionalKws : List String :=
  ["meeting", "schedule", "deadline", "project", "report", "proposal", "budget"]

/-- Keywords of the casual-tone rule. -/
def casualKws : List String :=
  ["hey", "hi", "lol", "btw", "awesome", "cool", "thanks", "thx"]

/-- Keywords of the empathetic-tone rule. -/
def empatheticKws : List String :=
  ["help", "support", "worried", "concern", "issue", "problem", "sorry"]

/-- Keywords of the concise-tone rule. -/
def conciseKws : List String :=
  ["urgent", "asap", "quickly", "now", "immediately", "short"]

/-- `detectTone` of `ai_chat_completion.ts`: four ordered rules over the
lower-cased message, then a length-based fallback. -/
def detectTone (message : String) : String :=
  let lowerMessage := strLower message
  if anyWord professionalKws lowerMessage then "professional"
  else if anyWord casualKws lowerMessage || containsChar message '!' then "casual"
  else if anyWord empatheticKws lowerMessage || containsChar message '?' then
    "empathetic"
  else if anyWord conciseKws lowerMessage || decide (message.length < 20) then
    "concise"
  else if message.length > 100 then "detailed" else "professional"

/-- One tone rule: a predicate on the raw message together with the label
returned when the rule fires. -/
def toneRules : List ((String → Bool) × String) :=
  [ (fun m => anyWord professionalKws (strLower m), "professional"),
    (fun m => anyWord casualKws (strLower m) || containsChar m '!', "casual"),
    (fun m => anyWord empatheticKws (strLower m) || containsChar m '?',
      "empathetic"),
    (fun m => anyWord conciseKws (strLower m) || decide (m.length < 20),
      "concise") ]

/-- First-matching-rule evaluation of an ordered rule list, with a fallback
label when no rule fires. -/
def firstRuleLabel (m : String) : List ((String → Bool) × String) → String → String
  | [], dflt => dflt
  | r :: rs, dflt => if r.1 m then r.2 else firstRuleLabel m rs dflt

/-- The tone detector as the specification words it: the ordered rule list
professional, casual, empathetic, concise evaluated first-match-wins, falling
back to "detailed" for texts longer than 100 characters and "professional"
otherwise. -/
def toneSpec (message : String) : String :=
  firstRuleLabel message toneRules
    (if message.length > 100 then "detailed" else "professional")

/-! ### Chat-completion confidence (`calculateConfidence`) -/

/-- The politeness/request indicators of `calculateConfidence`. -/
def politeKws : List String :=
  ["please", "help", "can you", "would you", "could you"]

/-- `calculateConfidence` of `ai_chat_completion.ts`, computed sequentially as
in the source: base 0.5, clarity and politeness boosts, capped context boosts,
final clamp at 0.95. -/
def calculateConfidence (message : String) (recentMessageCount : Nat)
    (contextRecordCount : Nat) : ℚ :=
  let c0 : ℚ := 1/2
  let c1 := if message.length > 10 then c0 + 1/10 else c0
  let c2 := if message.length > 50 then c1 + 1/10 else c1
  let c3 := if anyWord politeKws (strLower message) then c2 + 1/10 else c2
  let c4 := c3 + min ((recentMessageCount : ℚ) * (1/20)) (1/5)
  let c5 := c4 + min ((contextRecordCount : ℚ) * (1/10)) (3/10)
  min c5 (19/20)

/-- The confidence formula as the specification words it: a single additive
expression clamped to at most 0.95. -/
def confidenceSpec (message : String) (recentMessageCount : Nat)
    (contextRecordCount : Nat) : ℚ :=
  min (1/2
      + (if message.length > 10 then (1/10 : ℚ) else 0)
      + (if message.length > 50 then (1/10 : ℚ) else 0)
      + (if anyWord politeKws (strLower message) then (1/10 : ℚ) else 0)
      + min ((recentMessageCount : ℚ) * (1/20)) (1/5)
      + min ((contextRecordCount : ℚ) * (1/10)) (3/10))
    (19/20)

/-! ### Sentiment analysis (`analyzeSentiment`, summarize handler) -/

/-- Positive sentiment keywords. -/
def positiveWords : List String :=
  ["good", "great", "excellent", "amazing", "love", "like", "happy", "glad",
   "thanks", "thank you"]

/-- Negative sentiment keywords. -/
def negativeWords : List String :=
  ["bad", "terrible", "awful", "hate", "dislike", "sad", "angry", "frustrated",
   "problem", "issue"]

/-- Number of keywords of `kws` contained (as substrings) in the lower-cased
message, the per-message count `kws.filter(w => lower.includes(w)).length`. -/
def keywordHits (kws : List String) (message : String) : Nat :=
  (kws.filter fun w => containsSubstr (strLower message) w).length

/-- Total keyword hits over a message list. -/
def totalHits (kws : List String) (messages : List String) : Nat :=
  (messages.map fun m => keywordHits kws m).sum

/-- `analyzeSentiment` of the summarize-conversation handler. -/
def analyzeSentiment (messages : List String) : String :=
  if messages.isEmpty then "neutral"
  else
    let positiveCount := totalHits positiveWords messages
    let negativeCount := totalHits negativeWords messages
    if (positiveCount : ℚ) > (negativeCount : ℚ) * (3/2) then "positive"
    else if (negativeCount : ℚ) > (positiveCount : ℚ) * (3/2) then "negative"
    else "neutral"

/-- The sentiment classification as the specification words it: compare the
positive hit count against 1.5 times the negative one and vice versa, with
neutral as the default and for the empty list. -/
def sentimentSpec (messages : List String) : String :=
  if messages = [] then "neutral"
  else if (totalHits positiveWords messages : ℚ)
      > 3/2 * (totalHits negativeWords messages : ℚ) then "positive"
  else if (totalHits negativeWords messages : ℚ)
      > 3/2 * (totalHits positiveWords messages : ℚ) then "negative"
  else "neutral"

/-! ### IEEE binary64 rounding

The meeting-suggestion handler performs its confidence arithmetic in
JavaScript numbers (IEEE-754 binary64).  Every double is an exact rational,
and every arithmetic operation rounds its exact rational result to the
nearest double (ties to even), so the computation is modelled exactly over
`ℚ` by composing each operation with the rounding function `fl`.  The model
covers the normal, non-overflowing range, which contains every value this
handler can produce. -/

/-- Round a rational to the nearest integer, ties to even (the IEEE default
rounding applied to a scaled significand). -/
def rne (x : ℚ) : ℤ :=
  if x - Int.floor x < 1/2 then Int.floor x
  else if (1:ℚ)/2 < x - Int.floor x then Int.floor x + 1
  else if Int.floor x % 2 = 0 then Int.floor x else Int.floor x + 1

/-- The binade exponent of a positive rational: the largest `e` with
`2^e ≤ q`, located by doubling/halving within the given fuel. -/
def exp2Floor : Nat → ℚ → ℤ
  | 0, _ => 0
  | fuel + 1, q =>
    if q < 1 then exp2Floor fuel (2 * q) - 1
    else if q < 2 then 0
    else exp2Floor fuel (q / 2) + 1

/-- Round a positive rational to the nearest binary64 value: scale into the
53-bit significand range for its binade, round to nearest (ties to even), and
scale back. -/
def flPos (q : ℚ) : ℚ :=
  if q ≤ 0 then 0
  else ((rne (q * 2 ^ ((52:ℤ) - exp2Floor 400 q)) : ℤ) : ℚ) *
    2 ^ (exp2Floor 400 q - 52)

/-- Round a rational to the nearest binary64 value (normal range). -/
def fl (q : ℚ) : ℚ :=
  if q < 0 then -flPos (-q) else flPos q

/-- Double multiplication: round the exact product. -/
def mulD (a b : ℚ) : ℚ := fl (a * b)

/-- Double division: round the exact quotient. -/
def divD (a b : ℚ) : ℚ := fl (a / b)

/-- Double subtraction: round the exact difference. -/
def subD (a b : ℚ) : ℚ := fl (a - b)

/-! ### Meeting-trigger classification (`ai_meeting_suggestions.ts`) -/

/-- A weighted keyword group of the meeting-trigger table. -/
structure MeetingTrigger where
  keywords : List String
  weight : ℚ
  type : String

/-- The general trigger group (weight 0.9). -/
def generalTrigger : MeetingTrigger :=
  ⟨["meeting", "meet", "schedule", "call"], 9/10, "general"⟩

/-- The project trigger group (weight 0.8). -/
def projectTrigger : MeetingTrigger :=
  ⟨["project", "deadline", "planning", "review"], 8/10, "project"⟩

/-- The discussion trigger group (weight 0.7). -/
def discussionTrigger : MeetingTrigger :=
  ⟨["discuss", "decision", "strategy", "brainstorm"], 7/10, "discussion"⟩

/-- The urgent trigger group (weight 0.85). -/
def urgentTrigger : MeetingTrigger :=
  ⟨["problem", "issue", "urgent", "help"], 85/100, "urgent"⟩

/-- The presentation trigger group (weight 0.75). -/
def presentationTrigger : MeetingTrigger :=
  ⟨["presentation", "demo", "showcase", "show"], 75/100, "presentation"⟩

/-- The fixed, ordered trigger table of `analyzeMessagesForMeetings`. -/
def meetingTriggers : List MeetingTrigger :=
  [generalTrigger, projectTrigger, discussionTrigger, urgentTrigger,
   presentationTrigger]

/-- Join a list of strings with single spaces (`Array.prototype.join(' ')`). -/
def joinSpace : List String → String
  | [] => ""
  | [s] => s
  | s :: rest => s ++ " " ++ joinSpace rest

/-- The concatenated lower-cased conversation text the classifier scans. -/
def allTriggerText (messages : List String) : String :=
  joinSpace (messages.map strLower)

/-- Number of keywords of the group occurring (as substrings) in the text. -/
def triggerMatches (text : String) (t : MeetingTrigger) : Nat :=
  (t.keywords.filter fun k => containsSubstr text k).length

/-- Per-group confidence: weight × (matched count / group size), capped at 1,
computed in double arithmetic — the weight literals of the source denote the
doubles nearest the decimals in the table, and the product and quotient each
round; `Math.min` compares exactly. -/
def triggerConfidence (text : String) (t : MeetingTrigger) : ℚ :=
  min (mulD (fl t.weight)
    (divD (triggerMatches text t : ℚ) (t.keywords.length : ℚ))) 1

/-- The classifier loop of `analyzeMessagesForMeetings`: the running maximum
confidence and primary type, updated only on a strictly greater confidence,
groups without any keyword match skipped. -/
def classifyLoop (text : String) : List MeetingTrigger → ℚ × String → ℚ × String
  | [], acc => acc
  | t :: ts, acc =>
    if triggerMatches text t > 0 then
      if triggerConfidence text t > acc.1 then
        classifyLoop text ts (triggerConfidence text t, t.type)
      else classifyLoop text ts acc
    else classifyLoop text ts acc

/-- Winning confidence and primary type of the trigger scan, started from
confidence 0 and type "general". -/
def classifyMeetingTriggers (messages : List String) : ℚ × String :=
  classifyLoop (allTriggerText messages) meetingTriggers (0, "general")

/-- Largest per-group confidence over a trigger list (0 for the empty list):
the "highest-confidence group wins" value the specification describes. -/
def maxTriggerConfidence (text : String) (ts : List MeetingTrigger) : ℚ :=
  ts.foldr (fun t r => max (triggerConfidence text t) r) 0

/-- The winning confidence as the specification words it. -/
def specWinningConfidence (messages : List String) : ℚ :=
  maxTriggerConfidence (allTriggerText messages) meetingTriggers

/-- Type of the first trigger group attaining confidence `m`, defaulting to
"general": the earliest-in-table tie-break of the specification. -/
def firstTypeAttaining (text : String) (ts : List MeetingTrigger) (m : ℚ) :
    String :=
  match ts.find? (fun t => decide (triggerConfidence text t = m)) with
  | some t => t.type
  | none => "general"

/-- The primary suggestion type as the specification describes it: the group
appearing earliest in the fixed trigger list among those of maximal
confidence. -/
def specPrimaryType (messages : List String) : String :=
  firstTypeAttaining (allTriggerText messages) meetingTriggers
    (specWinningConfidence messages)

/-- A meeting suggestion record (`AIMeetingSuggestion`), times in epoch
milliseconds. -/
structure AIMeetingSuggestion where
  title : String
  description : String
  suggested_time : ℤ
  duration_minutes : Nat
  participants : List String
  confidence : ℚ
  reasoning : String

/-- `generateMeetingTitle`. -/
def generateMeetingTitle (type chatName : String) : String :=
  if type = "general" then "Follow-up Discussion - " ++ chatName
  else if type = "project" then "Project Planning Meeting - " ++ chatName
  else if type = "discussion" then "Strategy Discussion - " ++ chatName
  else if type = "urgent" then "Urgent Issue Resolution - " ++ chatName
  else if type = "presentation" then "Review & Demo Session - " ++ chatName
  else "Team Meeting - " ++ chatName

/-- `generateMeetingDescription`, which uses the recent messages only through
their count. -/
def generateMeetingDescription (type : String) (recentMessages : List String) :
    String :=
  let base :=
    if type = "general" then
      "Continue the conversation and align on next steps based on recent chat discussions."
    else if type = "project" then
      "Review project progress, discuss milestones, and plan upcoming deliverables."
    else if type = "discussion" then
      "Strategic discussion to make key decisions and align on direction."
    else if type = "urgent" then
      "Address urgent issues identified in recent conversations and determine action items."
    else if type = "presentation" then
      "Present updates, demonstrate progress, and gather feedback from the team."
    else "Team meeting to discuss recent topics."
  if recentMessages.length > 0 then
    base ++ " This meeting was suggested based on " ++
      toString recentMessages.length ++
      " recent messages indicating the need for synchronous discussion."
  else base

/-- `getDurationByType`. -/
def getDurationByType (type : String) : Nat :=
  if type = "general" then 30
  else if type = "project" then 60
  else if type = "discussion" then 45
  else if type = "urgent" then 30
  else if type = "presentation" then 45
  else 30

/-- `generateReasoning`. -/
def generateReasoning (type : String) (messageCount participantCount : Nat) :
    String :=
  if type = "general" then
    "Detected meeting-related keywords in " ++ toString messageCount ++
      " recent messages with " ++ toString participantCount ++ " participants."
  else if type = "project" then
    "Project-related discussions identified across " ++ toString messageCount ++
      " messages suggest need for planning session."
  else if type = "discussion" then
    "Strategic discussion indicators found in conversation history with " ++
      toString participantCount ++ " stakeholders."
  else if type = "urgent" then
    "Urgent issue keywords detected in recent messages requiring immediate attention from " ++
      toString participantCount ++ " people."
  else if type = "presentation" then
    "Demo or presentation-related content identified, suggesting review session with " ++
      toString participantCount ++ " participants."
  else "AI analysis of " ++ toString messageCount ++
    " messages suggests meeting would be beneficial."

/-- The three candidate suggestion times: now + 2h, + 24h, + 48h. -/
def suggestionTimes (now : ℤ) : List ℤ :=
  [now + 2 * 60 * 60 * 1000, now + 24 * 60 * 60 * 1000,
   now + 48 * 60 * 60 * 1000]

/-- The step confidence `maxConfidence - (i * 0.1)` of the suggestion loop,
in double arithmetic (`0.1` denotes the double nearest 1/10; the product and
difference each round). -/
def stepConfD (mc : ℚ) (i : Nat) : ℚ :=
  subD mc (mulD (i : ℚ) (fl (1/10)))

/-- `Math.round(confidence * 100) / 100` in double arithmetic: the product
rounds, `Math.round` rounds the double's exact value half away from zero to
an integer (exact below 2^53), and the division by 100 rounds. -/
def round2D (q : ℚ) : ℚ :=
  divD ((round (mulD q 100) : ℤ) : ℚ) 100

/-- The suggestion record emitted at loop index `i`: step confidence rounded
to two decimals, at the `i`-th candidate time. -/
def mkSuggestion (mc : ℚ) (primaryType chatName : String)
    (msgs participantIds : List String) (now : ℤ) (i : Nat) :
    AIMeetingSuggestion :=
  { title := generateMeetingTitle primaryType chatName
    description := generateMeetingDescription primaryType (msgs.take 5)
    suggested_time := (suggestionTimes now).getD i 0
    duration_minutes := getDurationByType primaryType
    participants := participantIds
    confidence := round2D (stepConfD mc i)
    reasoning :=
      generateReasoning primaryType msgs.length participantIds.length }

/-- The suggestion-emitting loop of `analyzeMessagesForMeetings` (bound 3,
unrolled): the loop breaks once a step confidence falls below 0.5, the
comparison taken on the double step value. -/
def buildSuggestions (mc : ℚ) (primaryType chatName : String)
    (msgs participantIds : List String) (now : ℤ) :
    List AIMeetingSuggestion :=
  if stepConfD mc 0 < 1/2 then []
  else mkSuggestion mc primaryType chatName msgs participantIds now 0 ::
    (if stepConfD mc 1 < 1/2 then []
     else mkSuggestion mc primaryType chatName msgs participantIds now 1 ::
       (if stepConfD mc 2 < 1/2 then []
        else [mkSuggestion mc primaryType chatName msgs participantIds now 2]))

/-- `analyzeMessagesForMeetings` over the message contents: empty input gives
no suggestions, the trigger scan classifies the conversation, a winning
confidence below the double 0.6 suppresses suggestions, otherwise up to three
time-offset suggestions are produced. -/
def analyzeMessagesForMeetings (msgs participantIds : List String)
    (chatName : String) (now : ℤ) : List AIMeetingSuggestion :=
  if msgs.length = 0 then []
  else
    let p := classifyMeetingTriggers msgs
    if p.1 < fl (3/5) then []
    else buildSuggestions p.1 p.2 chatName msgs participantIds now

/-! ### The AIContext store -/

/-- The `context_type` enum of the `ai_context` table. -/
inductive ContextType where
  | conversation_summary
  | user_preference
  | meeting_context
  | translation_cache
deriving DecidableEq

/-- The JSON object the translation handler stores in `embedding_vector`. -/
structure CacheData where
  translated_text : String
  detected_language : Option String
  original_message : String
  from_language : String
  to_language : String
deriving DecidableEq

/-- A row of the `ai_context` table, timestamps in epoch milliseconds.  The
`embedding_vector` column is schema-less JSON; the translation cache is its
only producer and consumer among the modelled handlers, so it is typed by the
object that handler stores. -/
structure AIContextRow where
  user_id : String
  chat_id : Option String
  context_type : ContextType
  content : String
  embedding_vector : Option CacheData
  relevance_score : ℚ
  expires_at : Option ℤ
  created_at : ℤ
deriving DecidableEq

/-- Stable insertion of `x` into `l`: `x` is placed before the first element
that does not strictly precede it. -/
def insertSorted (pr : α → α → Bool) (x : α) : List α → List α
  | [] => [x]
  | y :: ys => if pr y x then y :: insertSorted pr x ys else x :: y :: ys

/-- Stable sort by a strict-precedence test, modelling the deterministic
row order a SQL `ORDER BY` produces. -/
def stableSortBy (pr : α → α → Bool) : List α → List α
  | [] => []
  | x :: xs => insertSorted pr x (stableSortBy pr xs)

/-- `ORDER BY relevance_score DESC, created_at DESC`. -/
def rowPrecedes (a b : AIContextRow) : Bool :=
  a.relevance_score > b.relevance_score ||
    (a.relevance_score == b.relevance_score && a.created_at > b.created_at)

/-! ### Translation (`translateMessage` handler) -/

/-- Input record of the translate-message handler. -/
structure TranslateMessageInput where
  message : String
  from_language : String
  to_language : String
  user_id : String
  preserve_tone : Bool

/-- Response record of the translate-message handler. -/
structure TranslateMessageResponse where
  translated_text : String
  confidence : ℚ
  detected_language : Option String
  tone_preserved : Bool

/-- `detectLanguage`: keyword-based language detection over the lower-cased
text, defaulting to English. -/
def detectLanguage (text : String) : String :=
  let lowerText := strLower text
  if containsSubstr lowerText "hola" || containsSubstr lowerText "mundo" ||
      containsSubstr lowerText "días" then "es"
  else if containsSubstr lowerText "bonjour" || containsSubstr lowerText "monde"
    then "fr"
  else if containsSubstr lowerText "hallo" || containsSubstr lowerText "welt"
    then "de"
  else "en"

/-- Global left-to-right non-overlapping replacement of pattern `p` by `r`
(the semantics of `String.prototype.replace` with a `/g` literal regex); the
fuel argument bounds the scan by the input length. -/
def replaceAllAux (p r : List Char) : Nat → List Char → List Char
  | 0, cs => cs
  | _, [] => []
  | Nat.succ fuel, c :: cs =>
    if List.isPrefixOf p (c :: cs) then
      r ++ replaceAllAux p r fuel (List.drop p.length (c :: cs))
    else c :: replaceAllAux p r fuel cs

/-- Replace every occurrence of `p` in `s` by `r`. -/
def replaceAll (s p r : String) : String :=
  String.mk (replaceAllAux p.toList r.toList s.length s.toList)

/-- Apply a chain of replacements left to right. -/
def replaceSeq (s : String) (subs : List (String × String)) : String :=
  subs.foldl (fun t pr => replaceAll t pr.1 pr.2) s

/-- The replacement chain `mockTranslationService` applies for each supported
language pair (empty for unsupported pairs, leaving the text unchanged). -/
def translationTable (fromLang toLang : String) : List (String × String) :=
  if fromLang = "en" ∧ toLang = "es" then
    [("Hello", "Hola"), ("hello", "hola"), ("World", "Mundo"),
     ("world", "mundo"), ("Good morning", "Buenos días"),
     ("good morning", "buenos días")]
  else if fromLang = "en" ∧ toLang = "fr" then
    [("Hello", "Bonjour"), ("hello", "bonjour"), ("World", "Monde"),
     ("world", "monde"), ("Good morning", "Bonjour"),
     ("good morning", "bonjour")]
  else if fromLang = "en" ∧ toLang = "de" then
    [("Hello", "Hallo"), ("hello", "hallo"), ("World", "Welt"),
     ("world", "welt"), ("Good morning", "Guten morgen"),
     ("good morning", "guten morgen")]
  else if fromLang = "es" ∧ toLang = "en" then
    [("Hola", "Hello"), ("hola", "hello"), ("Mundo", "World"),
     ("mundo", "world"), ("Buenos días", "Good morning"),
     ("buenos días", "good morning")]
  else if fromLang = "es" ∧ toLang = "fr" then
    [("Hola", "Bonjour"), ("hola", "bonjour"), ("Mundo", "Monde"),
     ("mundo", "monde")]
  else if fromLang = "fr" ∧ toLang = "en" then
    [("Bonjour", "Hello"), ("bonjour", "hello"), ("Monde", "World"),
     ("monde", "world")]
  else if fromLang = "fr" ∧ toLang = "es" then
    [("Bonjour", "Hola"), ("bonjour", "hola"), ("Monde", "Mundo"),
     ("monde", "mundo")]
  else if fromLang = "de" ∧ toLang = "en" then
    [("Hallo", "Hello"), ("hallo", "hello"), ("Welt", "World"),
     ("welt", "world")]
  else []

/-- The effective source language: the detected language in `auto` mode
(`detectLanguage` never returns the empty string, so the `|| 'en'` fallback of
the source is inert), the requested language otherwise. -/
def effectiveFromLang (message fromLang : String) : String :=
  if fromLang = "auto" then detectLanguage message else fromLang

/-- Result record of `mockTranslationService`. -/
structure TranslationResult where
  translated : String
  confidence : ℚ
  detectedLang : Option String

/-- `mockTranslationService`: substitute via the table for the language pair,
short-circuit to confidence 1.0 for a same-language pair, and otherwise report
confidence 0.95 when the text changed and 0.3 when it did not. -/
def mockTranslationService (text fromLang toLang : String) : TranslationResult :=
  let detectedLanguage :=
    if fromLang = "auto" then some (detectLanguage text) else none
  let actualFromLang := effectiveFromLang text fromLang
  let translated := replaceSeq text (translationTable actualFromLang toLang)
  if actualFromLang = toLang then ⟨text, 1, detectedLanguage⟩
  else ⟨translated, if translated ≠ text then 95/100 else 3/10,
    detectedLanguage⟩

/-- Collapse every maximal whitespace run to a single underscore
(`content.replace(/\s+/g, '_')`). -/
def collapseWS : List Char → List Char
  | [] => []
  | [c] => if isWS c then ['_'] else [c]
  | c :: d :: rest =>
    if isWS c then
      if isWS d then collapseWS (d :: rest)
      else '_' :: collapseWS (d :: rest)
    else c :: collapseWS (d :: rest)

/-- `generateCacheKey`: message and languages joined by underscores,
whitespace collapsed to underscores, truncated to 100 characters. -/
def generateCacheKey (message fromLang toLang : String) : String :=
  String.mk
    ((collapseWS (message ++ "_" ++ fromLang ++ "_" ++ toLang).toList).take 100)

/-- The cache-lookup condition of `translateMessage`: same user, row type
`translation_cache`, content equal to the cache key of the input.  No
condition on `expires_at` appears in the source query. -/
def isCacheRowFor (input : TranslateMessageInput) (r : AIContextRow) : Bool :=
  r.user_id == input.user_id &&
    r.context_type == ContextType.translation_cache &&
    r.content == generateCacheKey input.message input.from_language
      input.to_language

/-- The cache row a cache-miss call of `translateMessage` inserts: the cache
key as content, the translation payload in `embedding_vector`, the translation
confidence as relevance score, creation now and expiry 24 hours later. -/
def freshCacheRow (input : TranslateMessageInput) (now : ℤ) : AIContextRow :=
  let tr := mockTranslationService input.message input.from_language
    input.to_language
  { user_id := input.user_id
    chat_id := none
    context_type := ContextType.translation_cache
    content := generateCacheKey input.message input.from_language
      input.to_language
    embedding_vector := some
      { translated_text := tr.translated
        detected_language := tr.detectedLang
        original_message := input.message
        from_language := input.from_language
        to_language := input.to_language }
    relevance_score := tr.confidence
    expires_at := some (now + 24 * 60 * 60 * 1000)
    created_at := now }

/-- `translateMessage` as a state transformer over the `ai_context` table:
on a cache hit return the stored payload and relevance score and leave the
table unchanged; on a miss translate, append one cache row expiring 24 hours
after creation, and return the computed result. -/
def translateMessage (input : TranslateMessageInput) (now : ℤ)
    (st : List AIContextRow) : TranslateMessageResponse × List AIContextRow :=
  match (st.filter (isCacheRowFor input)).head? with
  | some cached =>
    ({ translated_text :=
        match cached.embedding_vector with
        | some d => if d.translated_text = "" then input.message
            else d.translated_text
        | none => input.message
       confidence := cached.relevance_score
       detected_language :=
        match cached.embedding_vector with
        | some d => d.detected_language
        | none => none
       tone_preserved := input.preserve_tone }, st)
  | none =>
    let tr := mockTranslationService input.message input.from_language
      input.to_language
    ({ translated_text := tr.translated
       confidence := tr.confidence
       detected_language := tr.detectedLang
       tone_preserved := input.preserve_tone },
     st ++ [freshCacheRow input now])

/-! ### AI-context retrieval (`searchAIContext`, chat-completion fetch) -/

/-- Input record of the search-AI-context handler. -/
structure SearchAIContextInput where
  user_id : String
  context_type : Option ContextType
  query : String
  limit : Nat

/-- `searchAIContext`: rows of the user, optionally restricted to a context
type, whose content contains the query case-insensitively (`ILIKE %query%`),
ordered by relevance then creation time descending, truncated to the limit.
The source query has no condition on `expires_at`. -/
def searchAIContext (input : SearchAIContextInput) (st : List AIContextRow) :
    List AIContextRow :=
  (stableSortBy rowPrecedes (st.filter fun r =>
    r.user_id == input.user_id &&
    (match input.context_type with
     | some t => r.context_type == t
     | none => true) &&
    containsSubstr (strLower r.content) (strLower input.query))).take
    input.limit

/-- The AI-context query of `aiChatCompletion`: rows of the user and chat that
are unexpired (`expires_at IS NULL OR expires_at >= now`), ordered by
relevance then creation time descending, limited to 5. -/
def fetchChatContext (userId chatId : String) (now : ℤ)
    (st : List AIContextRow) : List AIContextRow :=
  (stableSortBy rowPrecedes (st.filter fun r =>
    r.user_id == userId && r.chat_id == some chatId &&
    (match r.expires_at with
     | none => true
     | some e => decide (now ≤ e)))).take 5

/-! ### Meetings (`updateMeeting` handler, `createMeeting` placeholder) -/

/-- The meeting `status` enum. -/
inductive MeetingStatus where
  | scheduled
  | in_progress
  | completed
  | cancelled
deriving DecidableEq

/-- A row of the meetings table, timestamps in epoch milliseconds. -/
structure Meeting where
  id : String
  title : String
  description : Option String
  organizer_id : String
  participants : List String
  start_time : ℤ
  end_time : ℤ
  timezone : String
  meeting_url : Option String
  chat_id : Option String
  ai_suggested : Bool
  status : MeetingStatus
  created_at : ℤ
  updated_at : ℤ
deriving DecidableEq

/-- Input record of the update-meeting handler: `none` marks a field that was
not provided. -/
structure UpdateMeetingInput where
  id : String
  title : Option String
  description : Option (Option String)
  start_time : Option ℤ
  end_time : Option ℤ
  timezone : Option String
  meeting_url : Option (Option String)
  status : Option MeetingStatus

/-- The partial update `updateMeeting` applies to a stored row: provided
fields overwrite, missing fields are preserved, `updated_at` is refreshed. -/
def applyMeetingUpdate (input : UpdateMeetingInput) (now : ℤ) (m : Meeting) :
    Meeting :=
  { m with
    updated_at := now
    title := input.title.getD m.title
    description := input.description.getD m.description
    start_time := input.start_time.getD m.start_time
    end_time := input.end_time.getD m.end_time
    timezone := input.timezone.getD m.timezone
    meeting_url := input.meeting_url.getD m.meeting_url
    status := input.status.getD m.status }

/-- `updateMeeting` as a state transformer over the meetings table: not-found
and validation errors leave the table unchanged; the validation compares the
effective start and end times (provided value where given, existing value
otherwise) and runs before the write. -/
def updateMeeting (input : UpdateMeetingInput) (now : ℤ) (st : List Meeting) :
    Except String Meeting × List Meeting :=
  match (st.filter fun m => m.id == input.id).head? with
  | none =>
    (Except.error ("Meeting with id " ++ input.id ++ " not found"), st)
  | some existing =>
    if input.start_time.getD existing.start_time ≥
        input.end_time.getD existing.end_time then
      (Except.error "Meeting start time must be before end time", st)
    else
      (Except.ok (applyMeetingUpdate input now existing),
       st.map fun m =>
         if m.id == input.id then applyMeetingUpdate input now m else m)

/-- Input record of the create-meeting handler. -/
structure CreateMeetingInput where
  title : String
  description : Option String
  organizer_id : String
  participants : List String
  start_time : ℤ
  end_time : ℤ
  timezone : String
  meeting_url : Option String
  chat_id : Option String
  ai_suggested : Bool

/-- JavaScript `x || null` on an optional string: `undefined`, `null` and
the empty string all coalesce to `null`. -/
def orNullStr (s : Option String) : Option String :=
  match s with
  | none => none
  | some v => if v = "" then none else some v

/-- The repository's `createMeeting` handler (a placeholder implementation):
it performs no validation at all and resolves a meeting echoing the input
with a fixed placeholder id, status `scheduled`, and fresh timestamps. -/
def createMeeting (input : CreateMeetingInput) (now : ℤ) : Meeting :=
  { id := "00000000-0000-0000-0000-000000000000"
    title := input.title
    description := orNullStr input.description
    organizer_id := input.organizer_id
    participants := input.participants
    start_time := input.start_time
    end_time := input.end_time
    timezone := input.timezone
    meeting_url := orNullStr input.meeting_url
    chat_id := orNullStr input.chat_id
    ai_suggested := input.ai_suggested
    status := MeetingStatus.scheduled
    created_at := now
    updated_at := now }

/-- An expired conversation-summary row (expiry at epoch 0). -/
def expiredSummaryRow : AIContextRow :=
  { user_id := "u1"
    chat_id := none
    context_type := ContextType.conversation_summary
    content := "summary of standup"
    embedding_vector := none
    relevance_score := 1
    expires_at := some 0
    created_at := 0 }

/-- An expired translation-cache row (expiry at epoch 0) for the cache key of
("hello", en→es). -/
def expiredCacheRow : AIContextRow :=
  { user_id := "u1"
    chat_id := none
    context_type := ContextType.translation_cache
    content := generateCacheKey "hello" "en" "es"
    embedding_vector := some
      { translated_text := "hola"
        detected_language := none
        original_message := "hello"
        from_language := "en"
        to_language := "es" }
    relevance_score := 1
    expires_at := some 0
    created_at := 0 }

/-- An unexpired chat-bound context row. -/
def liveChatRow : AIContextRow :=
  { user_id := "u1"
    chat_id := some "c1"
    context_type := ContextType.conversation_summary
    content := "notes"
    embedding_vector := none
    relevance_score := 1
    expires_at := none
    created_at := 0 }

/-! ### Conversation summarization (`summarizeConversation` handler) -/

/-- The `message_type` enum. -/
inductive MessageType where
  | text
  | voice
  | image
  | file
  | ai_suggestion
deriving DecidableEq

/-- The per-message data the summarize query selects (content, type, sender
display name, creation time). -/
structure MsgRec where
  content : String
  message_type : MessageType
  sender_name : String
  created_at : ℤ
deriving DecidableEq

/-- The `summary_type` request field. -/
inductive SummaryType where
  | brief
  | detailed
  | action_items
deriving DecidableEq

/-- The summarize-conversation response. -/
structure SummaryResponse where
  summary : String
  key_points : List String
  action_items : Option (List String)
  participants : List String
  sentiment : String
  topics : List String

/-- First-occurrence deduplication, the iteration order of
`[...new Set(xs)]`. -/
def dedupFirstAux (seen : List String) : List String → List String
  | [] => []
  | x :: xs =>
    if seen.contains x then dedupFirstAux seen xs
    else x :: dedupFirstAux (x :: seen) xs

/-- Deduplicate keeping the first occurrence of each element. -/
def dedupFirst (l : List String) : List String :=
  dedupFirstAux [] l

/-- Collapse every maximal whitespace run to the single character `u`
(`replace(/\s+/g, u)`). -/
def collapseWSWith (u : Char) : List Char → List Char
  | [] => []
  | [c] => if isWS c then [u] else [c]
  | c :: d :: rest =>
    if isWS c then
      if isWS d then collapseWSWith u (d :: rest)
      else u :: collapseWSWith u (d :: rest)
    else c :: collapseWSWith u (d :: rest)

/-- `String.prototype.trim`: strip leading and trailing whitespace. -/
def trimStr (s : String) : String :=
  String.mk (((s.toList.dropWhile isWS).reverse.dropWhile isWS).reverse)

/-- The importance keywords of `calculateImportanceScore`. -/
def importantKeywords : List String :=
  ["important", "critical", "urgent", "decision", "agree", "confirm",
   "deadline"]

/-- `calculateImportanceScore`: capped length factor, importance keywords
× 2, question marks × 0.5, exclamation marks × 0.3. -/
def calculateImportanceScore (message : String) : ℚ :=
  min ((message.length : ℚ) / 50) 3
    + (keywordHits importantKeywords message : ℚ) * 2
    + ((message.toList.filter fun c => c = '?').length : ℚ) * (1/2)
    + ((message.toList.filter fun c => c = '!').length : ℚ) * (3/10)

/-- `extractKeyPoints`: messages longer than 30 characters, whitespace
collapsed and trimmed, truncated at 97 characters plus an ellipsis, the first
`2 × maxPoints` candidates scored by importance and the top `maxPoints`
returned (stable descending sort, as the runtime's sort is stable). -/
def extractKeyPoints (messages : List String) (maxPoints : Nat) :
    List String :=
  if messages = [] then []
  else
    let importantMessages :=
      (((messages.filter fun m => m.length > 30).map fun m =>
        let cleaned := trimStr (String.mk (collapseWSWith ' ' m.toList))
        if cleaned.length > 100 then String.mk (cleaned.toList.take 97) ++ "..."
        else cleaned)).take (maxPoints * 2)
    (stableSortBy
      (fun a b => calculateImportanceScore a > calculateImportanceScore b)
      importantMessages).take maxPoints

/-- The fixed topic table of `extractTopics`, in object-literal order. -/
def topicKeywords : List (String × List String) :=
  [("project management",
      ["project", "milestone", "deadline", "task", "sprint"]),
   ("meeting planning",
      ["meeting", "schedule", "calendar", "time", "availability"]),
   ("technical discussion",
      ["code", "bug", "feature", "development", "technical"]),
   ("business strategy",
      ["strategy", "business", "market", "revenue", "growth"]),
   ("team coordination",
      ["team", "coordinate", "collaborate", "assign", "responsibility"]),
   ("feedback",
      ["feedback", "review", "opinion", "thoughts", "suggestion"])]

/-- `extractTopics`: per-topic keyword hit totals, topics with positive score
sorted by descending score (stable), truncated to 5 names. -/
def extractTopics (messages : List String) : List String :=
  if messages = [] then []
  else
    ((stableSortBy (fun a b => a.2 > b.2)
      ((topicKeywords.map fun tk => (tk.1, totalHits tk.2 messages)).filter
        fun p => p.2 > 0)).take 5).map fun p => p.1

/-- A token of the action-item regular expressions: a case-insensitive
literal, ordered case-insensitive alternatives, or a greedy character class
(`+` when the flag is set, `*` otherwise). -/
inductive RTok where
  | lit : String → RTok
  | alts : List String → RTok
  | cls : (Char → Bool) → Bool → RTok

/-- Case-insensitive prefix test. -/
def ciPrefixOf : List Char → List Char → Bool
  | [], _ => true
  | _ :: _, [] => false
  | a :: ps, c :: rest => lowerChar a == lowerChar c && ciPrefixOf ps rest

/-- Remainders after a greedy character-class run, longest consumption first
(the backtracking order of a greedy `+`/`*`). -/
def greedySplits (p : Char → Bool) (requireOne : Bool) (cs : List Char) :
    List (List Char) :=
  let n := (cs.takeWhile p).length
  (List.range (n + 1)).filterMap fun k =>
    if requireOne ∧ n - k = 0 then none else some (cs.drop (n - k))

/-- All remainders after matching a token sequence at the head of the text,
in backtracking priority order. -/
def matchToks : List RTok → List Char → List (List Char)
  | [], cs => [cs]
  | RTok.lit s :: ts, cs =>
    if ciPrefixOf s.toList cs then matchToks ts (cs.drop s.length) else []
  | RTok.alts ss :: ts, cs =>
    ss.flatMap fun s =>
      if ciPrefixOf s.toList cs then matchToks ts (cs.drop s.length) else []
  | RTok.cls p one :: ts, cs =>
    (greedySplits p one cs).flatMap fun rest => matchToks ts rest

/-- A pattern of the shape the action extractor uses: a token prefix followed
by one greedy capturing class (`(...)+` at the end of the pattern). -/
structure RPat where
  toks : List RTok
  capCls : Char → Bool

/-- The first remainder whose greedy capture is non-empty, returning the
capture and the text after the whole match. -/
def firstCapture (capP : Char → Bool) : List (List Char) →
    Option (List Char × List Char)
  | [] => none
  | rest :: more =>
    let run := rest.takeWhile capP
    if run.isEmpty then firstCapture capP more
    else some (run, rest.drop run.length)

/-- Match the pattern at the current position, if possible. -/
def matchPatHere (pat : RPat) (cs : List Char) :
    Option (List Char × List Char) :=
  firstCapture pat.capCls (matchToks pat.toks cs)

/-- `matchAll` scanning: find the leftmost match at or after the current
position, record its capture, and continue after the match end. -/
def scanPattern (pat : RPat) : Nat → List Char → List (List Char)
  | 0, _ => []
  | Nat.succ fuel, cs =>
    match matchPatHere pat cs with
    | some (cap, rest) => cap :: scanPattern pat fuel rest
    | none =>
      match cs with
      | [] => []
      | _ :: cs' => scanPattern pat fuel cs'

/-- All captures of `pat` over `s`, in match order. -/
def matchAllCaptures (pat : RPat) (s : String) : List String :=
  (scanPattern pat (s.length + 1) s.toList).map String.mk

/-- `[^.!?]`. -/
def notSentEnd (c : Char) : Bool :=
  !(c = '.' ∨ c = '!' ∨ c = '?')

/-- `[^.!?\n]`. -/
def notSentEndNl (c : Char) : Bool :=
  !(c = '.' ∨ c = '!' ∨ c = '?' ∨ c = '\n')

/-- The four action-item patterns of `extractActionItems`. -/
def actionPatterns : List RPat :=
  [ ⟨[RTok.alts ["need to", "should", "must", "have to", "will", "going to"],
      RTok.cls isWS true], notSentEnd⟩,
    ⟨[RTok.alts ["todo", "task", "action"], RTok.lit ":",
      RTok.cls isWS false], notSentEndNl⟩,
    ⟨[RTok.alts ["assign", "give"], RTok.cls isWS true,
      RTok.cls isWordChar true, RTok.cls isWS true, RTok.lit "to",
      RTok.cls isWS true], notSentEnd⟩,
    ⟨[RTok.alts ["deadline", "due", "by"], RTok.cls isWS true], notSentEnd⟩ ]

/-- `extractActionItems`: all trimmed captures longer than 5 characters, per
message and per pattern in order, deduplicated keeping first occurrences and
truncated to 10. -/
def extractActionItems (messages : List String) : List String :=
  (dedupFirst (messages.flatMap fun message =>
    actionPatterns.flatMap fun pat =>
      (matchAllCaptures pat message).filterMap fun cap =>
        let t := trimStr cap
        if t.length > 5 then some t else none)).take 10

/-- `getTimeSpan` over the message creation times. -/
def getTimeSpan (times : List ℤ) : String :=
  if times.length < 2 then "a short period"
  else
    let sorted := stableSortBy (fun a b => decide (a < b)) times
    let diffMs : ℚ := ((sorted.getLastD 0 - sorted.headD 0 : ℤ) : ℚ)
    let diffHours := diffMs / (1000 * 60 * 60)
    let diffDays := diffHours / 24
    if diffDays > 1 then toString (Int.ceil diffDays) ++ " days"
    else if diffHours > 1 then toString (Int.ceil diffHours) ++ " hours"
    else "less than an hour"

/-- `generateBriefSummary`. -/
def generateBriefSummary (messages participants : List String) : String :=
  let participantList := String.intercalate ", " participants
  if messages.length = 0 then "No conversation content to summarize."
  else
    let hasQuestions := messages.any fun m => containsChar m '?'
    let hasDecisions := messages.any fun m =>
      containsSubstr (strLower m) "decide" ||
      containsSubstr (strLower m) "agree" ||
      containsSubstr (strLower m) "confirm"
    let base := "Conversation between " ++ participantList ++ " with " ++
      toString messages.length ++ " messages."
    if hasDecisions then
      base ++ " Discussion included decision-making and agreements."
    else if hasQuestions then
      base ++ " Conversation involved questions and information exchange."
    else base ++ " General discussion and information sharing."

/-- `generateDetailedSummary`, which reads the full message records only
through their types and creation times. -/
def generateDetailedSummary (messages participants : List String)
    (fullMessages : List MsgRec) : String :=
  let participantList := String.intercalate ", " participants
  let timeSpan := getTimeSpan (fullMessages.map fun m => m.created_at)
  let voiceCount :=
    (fullMessages.filter fun m => m.message_type == MessageType.voice).length
  let imageCount :=
    (fullMessages.filter fun m => m.message_type == MessageType.image).length
  let fileCount :=
    (fullMessages.filter fun m => m.message_type == MessageType.file).length
  let s1 := "Detailed conversation summary: " ++ participantList ++
    " exchanged " ++ toString messages.length ++ " messages over " ++
    timeSpan ++ "."
  let s2 :=
    if voiceCount > 0 ∨ imageCount > 0 ∨ fileCount > 0 then
      s1 ++ " Multimedia content included: " ++ toString voiceCount ++
        " voice messages, " ++ toString imageCount ++ " images, and " ++
        toString fileCount ++ " files."
    else s1
  let longMessages := (messages.filter fun m => m.length > 100).length
  let shortResponses := (messages.filter fun m => m.length < 20).length
  if (longMessages : ℚ) > (messages.length : ℚ) * (3/10) then
    s2 ++ " Conversation featured detailed explanations and comprehensive discussions."
  else if (shortResponses : ℚ) > (messages.length : ℚ) * (1/2) then
    s2 ++ " Communication was brief and to-the-point with quick exchanges."
  else s2

/-- The action words of `generateActionItemSummary`. -/
def actionWords : List String :=
  ["todo", "task", "action", "follow up", "deadline", "assign", "complete",
   "finish"]

/-- `generateActionItemSummary`. -/
def generateActionItemSummary (messages participants : List String) : String :=
  let participantList := String.intercalate ", " participants
  let actionRelatedMessages := messages.filter fun m =>
    actionWords.any fun w => containsSubstr (strLower m) w
  if actionRelatedMessages.length = 0 then
    "Conversation between " ++ participantList ++
      " with no explicit action items identified."
  else
    "Action-focused conversation between " ++ participantList ++ ". " ++
      toString actionRelatedMessages.length ++
      " messages contained task-related content."

/-- The message contents the analyzers receive: contents of messages of type
`text` or `ai_suggestion` only, in order. -/
def textualContents (msgs : List MsgRec) : List String :=
  (msgs.filter fun m =>
    m.message_type == MessageType.text ||
    m.message_type == MessageType.ai_suggestion).map fun m => m.content

/-- The analysis portion of `summarizeConversation` (after authorization and
message loading): the empty-conversation fallback, participant extraction,
summary-type dispatch, and the four analyzers over the textual contents. -/
def summarizeAnalysis (stype : SummaryType) (msgs : List MsgRec) :
    SummaryResponse :=
  if msgs.length = 0 then
    { summary := "No messages found in the specified time range."
      key_points := []
      action_items :=
        if stype = SummaryType.action_items then some [] else none
      participants := []
      sentiment := "neutral"
      topics := [] }
  else
    let uniqueParticipants := dedupFirst (msgs.map fun m => m.sender_name)
    let messageContents := textualContents msgs
    { summary :=
        match stype with
        | SummaryType.brief =>
          generateBriefSummary messageContents uniqueParticipants
        | SummaryType.detailed =>
          generateDetailedSummary messageContents uniqueParticipants msgs
        | SummaryType.action_items =>
          generateActionItemSummary messageContents uniqueParticipants
      key_points :=
        match stype with
        | SummaryType.brief => extractKeyPoints messageContents 3
        | SummaryType.detailed => extractKeyPoints messageContents 8
        | SummaryType.action_items => extractKeyPoints messageContents 5
      action_items :=
        match stype with
        | SummaryType.action_items => some (extractActionItems messageContents)
        | _ => none
      participants := uniqueParticipants
      sentiment := analyzeSentiment messageContents
      topics := extractTopics messageContents }

/-- Two message records agree on everything the summarizer's analyzers may
see: type, sender name, creation time, and — for textual types only — the
content. -/
def sameVisible (m₁ m₂ : MsgRec) : Prop :=
  m₁.message_type = m₂.message_type ∧ m₁.sender_name = m₂.sender_name ∧
  m₁.created_at = m₂.created_at ∧
  ((m₁.message_type = MessageType.text ∨
    m₁.message_type = MessageType.ai_suggestion) → m₁.content = m₂.content)

end ChatApp

namespace ChatApp

/-! ### Theorems for claims C1, C3, C4 -/

/-- C1: the tone detector evaluates its rules in the fixed order professional,
casual, empathetic, concise, returns the label of the first rule that matches,
and falls back to "detailed" for texts longer than 100 characters and to
"professional" otherwise; in particular a text containing the professional
keyword "meeting" yields "professional" even though it also contains the
casual keyword "hey". -/
theorem detectTone_first_match_priority :
    (∀ s : String, detectTone s = toneSpec s) ∧
      detectTone "hey, about that meeting" = "professional" := by
  constructor
  · intro s
    simp only [detectTone, toneSpec, toneRules, firstRuleLabel]
  · decide

/-- C3: the chat-completion confidence is the additive formula of the
specification — base 0.5, two length boosts, a politeness boost, capped
recent-message and context boosts — clamped to at most 0.95. -/
theorem calculateConfidence_formula (message : String) (recentMessageCount : Nat)
    (contextRecordCount : Nat) :
    calculateConfidence message recentMessageCount contextRecordCount =
      confidenceSpec message recentMessageCount contextRecordCount := by
  unfold calculateConfidence confidenceSpec
  split_ifs <;> ring_nf

/-- C4: the sentiment analyzer counts case-insensitive substring keyword hits
over all messages and returns "positive" when the positive count exceeds 1.5
times the negative count, "negative" in the symmetric case, and "neutral"
otherwise, the empty message list included. -/
theorem analyzeSentiment_thresholds (messages : List String) :
    analyzeSentiment messages = sentimentSpec messages := by
  unfold analyzeSentiment sentimentSpec
  rcases messages with _ | ⟨m, ms⟩
  · simp
  · rw [show ((m :: ms).isEmpty) = false from rfl, if_neg (by simp),
      if_neg (by simp : ¬(m :: ms = ([] : List String)))]
    exact if_congr (by rw [mul_comm]) rfl (if_congr (by rw [mul_comm]) rfl rfl)

/-! ### Lemmas and theorems for claims C2, C9 -/

lemma exp2Floor_spec : ∀ (fuel : Nat) (q : ℚ) (e : ℤ),
    (2:ℚ) ^ e ≤ q → q < 2 ^ (e + 1) → e.natAbs ≤ fuel →
    exp2Floor fuel q = e := by
  intro fuel
  induction fuel with
  | zero =>
    intro q e h1 h2 h3
    have he : e = 0 := by omega
    subst he
    rfl
  | succ f ih =>
    intro q e h1 h2 h3
    simp only [exp2Floor]
    by_cases hq1 : q < 1
    · rw [if_pos hq1]
      have he : e ≤ -1 := by
        by_contra hc
        push_neg at hc
        have h0 : (2:ℚ) ^ (0:ℤ) ≤ 2 ^ e := by
          apply zpow_le_zpow_right₀ one_le_two
          omega
        rw [zpow_zero] at h0
        linarith
      have h1' : (2:ℚ) ^ (e + 1) ≤ 2 * q := by
        rw [zpow_add_one₀ (two_ne_zero)]
        linarith
      have h2' : 2 * q < 2 ^ (e + 1 + 1) := by
        rw [zpow_add_one₀ (two_ne_zero)]
        linarith
      rw [ih (2 * q) (e + 1) h1' h2' (by omega)]
      ring
    · rw [if_neg hq1]
      push_neg at hq1
      by_cases hq2 : q < 2
      · rw [if_pos hq2]
        have he1 : 0 ≤ e := by
          by_contra hc
          push_neg at hc
          have h0 : (2:ℚ) ^ (e + 1) ≤ 2 ^ (0:ℤ) := by
            apply zpow_le_zpow_right₀ one_le_two
            omega
          rw [zpow_zero] at h0
          linarith
        have he2 : e ≤ 0 := by
          by_contra hc
          push_neg at hc
          have h0 : (2:ℚ) ^ (1:ℤ) ≤ 2 ^ e := by
            apply zpow_le_zpow_right₀ one_le_two
            omega
          rw [zpow_one] at h0
          linarith
        omega
      · rw [if_neg hq2]
        push_neg at hq2
        have h1' : (2:ℚ) ^ (e - 1) ≤ q / 2 := by
          rw [show ((2:ℚ)) ^ (e - 1) = 2 ^ e / 2 by
            rw [zpow_sub₀ (two_ne_zero), zpow_one]]
          linarith
        have h2' : q / 2 < 2 ^ (e - 1 + 1) := by
          rw [show e - 1 + 1 = e by ring]
          have hx : q < 2 * 2 ^ e := by
            rw [show (2:ℚ) * 2 ^ e = 2 ^ (e + 1) by
              rw [zpow_add_one₀ (two_ne_zero)]
              ring]
            exact h2
          linarith
        have he : 1 ≤ e := by
          by_contra hc
          push_neg at hc
          have h0 : (2:ℚ) ^ (e + 1) ≤ 2 ^ (1:ℤ) := by
            apply zpow_le_zpow_right₀ one_le_two
            omega
          rw [zpow_one] at h0
          linarith
        rw [ih (q / 2) (e - 1) h1' h2' (by omega)]
        ring

/-- `fl` is computed by the rounded scaled significand once the binade of the
argument is located. -/
lemma fl_eq_of (q : ℚ) (e n : ℤ) (h0 : 0 < q)
    (h1 : 2 ^ e ≤ q) (h2 : q < 2 ^ (e + 1)) (h3 : e.natAbs ≤ 400)
    (h4 : rne (q * 2 ^ ((52:ℤ) - e)) = n) :
    fl q = (n : ℚ) * 2 ^ (e - 52) := by
  rw [fl, if_neg (not_lt.mpr h0.le), flPos, if_neg (not_le.mpr h0),
    exp2Floor_spec 400 q e h1 h2 h3, h4]

lemma rne_low (x : ℚ) (f : ℤ) (h1 : (f:ℚ) ≤ x) (h2 : x < f + 1)
    (h3 : x - f < 1/2) : rne x = f := by
  have hf : ⌊x⌋ = f := Int.floor_eq_iff.mpr ⟨h1, h2⟩
  rw [rne, hf, if_pos h3]

lemma rne_high (x : ℚ) (f : ℤ) (h1 : (f:ℚ) ≤ x) (h2 : x < f + 1)
    (h3 : (1:ℚ)/2 < x - f) : rne x = f + 1 := by
  have hf : ⌊x⌋ = f := Int.floor_eq_iff.mpr ⟨h1, h2⟩
  rw [rne, hf, if_neg (by linarith), if_pos h3]

lemma rne_tie_even (x : ℚ) (f : ℤ) (h1 : (f:ℚ) ≤ x) (h2 : x < f + 1)
    (h3 : x - f = 1/2) (he : f % 2 = 0) : rne x = f := by
  have hf : ⌊x⌋ = f := Int.floor_eq_iff.mpr ⟨h1, h2⟩
  rw [rne, hf, if_neg (by rw [h3]; norm_num), if_neg (by rw [h3]; norm_num),
    if_pos he]

lemma fl_zero : fl 0 = 0 := by
  rw [fl, if_neg (by norm_num), flPos, if_pos (le_refl 0)]

lemma rne_nonneg (x : ℚ) (hx : 0 ≤ x) : 0 ≤ rne x := by
  have hf : 0 ≤ ⌊x⌋ := Int.floor_nonneg.mpr hx
  rw [rne]
  split_ifs <;> omega

lemma fl_nonneg (q : ℚ) (h : 0 ≤ q) : 0 ≤ fl q := by
  rw [fl, if_neg (not_lt.mpr (by linarith))]
  rw [flPos]
  split_ifs with h0
  · exact le_refl 0
  · push_neg at h0
    have hx : (0:ℚ) ≤ q * 2 ^ ((52:ℤ) - exp2Floor 400 q) :=
      mul_nonneg h (le_of_lt (zpow_pos (by norm_num) _))
    exact mul_nonneg (Int.cast_nonneg.mpr (rne_nonneg _ hx))
      (le_of_lt (zpow_pos (by norm_num) _))

lemma mulD_nonneg (a b : ℚ) (ha : 0 ≤ a) (hb : 0 ≤ b) : 0 ≤ mulD a b := by
  rw [mulD]
  exact fl_nonneg _ (mul_nonneg ha hb)

lemma divD_nonneg (a b : ℚ) (ha : 0 ≤ a) (hb : 0 ≤ b) : 0 ≤ divD a b := by
  rw [divD]
  exact fl_nonneg _ (div_nonneg ha hb)

/-! Concrete double values used by the suggestion pipeline, each certified by
locating the binade and rounding the scaled significand. -/

lemma flc_one : fl 1 = 1 := by
  rw [fl_eq_of 1 0 4503599627370496 (by norm_num) (by norm_num) (by norm_num)
    (by norm_num)
    (by
      rw [show ((1:ℚ)) * 2 ^ ((52:ℤ) - 0) = 4503599627370496 by norm_num]
      exact rne_low _ 4503599627370496 (by norm_num) (by norm_num)
        (by norm_num))]
  norm_num

lemma flc_35 : fl (3/5) = 5404319552844595/9007199254740992 := by
  rw [fl_eq_of (3/5) (-1) 5404319552844595 (by norm_num) (by norm_num)
    (by norm_num) (by norm_num)
    (by
      rw [show ((3:ℚ)/5) * 2 ^ ((52:ℤ) - (-1)) = 27021597764222976/5 by
        norm_num]
      exact rne_low _ 5404319552844595 (by norm_num) (by norm_num)
        (by norm_num))]
  norm_num

lemma flc_T : fl (1/10) = 3602879701896397/36028797018963968 := by
  rw [fl_eq_of (1/10) (-4) 7205759403792794 (by norm_num) (by norm_num)
    (by norm_num) (by norm_num)
    (by
      rw [show ((1:ℚ)/10) * 2 ^ ((52:ℤ) - (-4)) = 36028797018963968/5 by
        norm_num]
      exact rne_high _ 7205759403792793 (by norm_num) (by norm_num)
        (by norm_num))]
  norm_num

lemma flc_9 : fl (9/10) = 8106479329266893/9007199254740992 := by
  rw [fl_eq_of (9/10) (-1) 8106479329266893 (by norm_num) (by norm_num)
    (by norm_num) (by norm_num)
    (by
      rw [show ((9:ℚ)/10) * 2 ^ ((52:ℤ) - (-1)) = 40532396646334464/5 by
        norm_num]
      exact rne_high _ 8106479329266892 (by norm_num) (by norm_num)
        (by norm_num))]
  norm_num

lemma flc_7 : fl (7/10) = 3152519739159347/4503599627370496 := by
  rw [fl_eq_of (7/10) (-1) 6305039478318694 (by norm_num) (by norm_num)
    (by norm_num) (by norm_num)
    (by
      rw [show ((7:ℚ)/10) * 2 ^ ((52:ℤ) - (-1)) = 31525197391593472/5 by
        norm_num]
      exact rne_low _ 6305039478318694 (by norm_num) (by norm_num)
        (by norm_num))]
  norm_num

lemma flc_v9 : fl (8106479329266893/9007199254740992) =
    8106479329266893/9007199254740992 := by
  rw [fl_eq_of _ (-1) 8106479329266893 (by norm_num) (by norm_num)
    (by norm_num) (by norm_num)
    (by
      rw [show ((8106479329266893:ℚ)/9007199254740992) *
          2 ^ ((52:ℤ) - (-1)) = 8106479329266893 by norm_num]
      exact rne_low _ 8106479329266893 (by norm_num) (by norm_num)
        (by norm_num))]
  norm_num

lemma flc_v7 : fl (3152519739159347/4503599627370496) =
    3152519739159347/4503599627370496 := by
  rw [fl_eq_of _ (-1) 6305039478318694 (by norm_num) (by norm_num)
    (by norm_num) (by norm_num)
    (by
      rw [show ((3152519739159347:ℚ)/4503599627370496) *
          2 ^ ((52:ℤ) - (-1)) = 6305039478318694 by norm_num]
      exact rne_low _ 6305039478318694 (by norm_num) (by norm_num)
        (by norm_num))]
  norm_num

lemma flc_vT : fl (3602879701896397/36028797018963968) =
    3602879701896397/36028797018963968 := by
  rw [fl_eq_of _ (-4) 7205759403792794 (by norm_num) (by norm_num)
    (by norm_num) (by norm_num)
    (by
      rw [show ((3602879701896397:ℚ)/36028797018963968) *
          2 ^ ((52:ℤ) - (-4)) = 7205759403792794 by norm_num]
      exact rne_low _ 7205759403792794 (by norm_num) (by norm_num)
        (by norm_num))]
  norm_num

lemma flc_2vT : fl (3602879701896397/18014398509481984) =
    3602879701896397/18014398509481984 := by
  rw [fl_eq_of _ (-3) 7205759403792794 (by norm_num) (by norm_num)
    (by norm_num) (by norm_num)
    (by
      rw [show ((3602879701896397:ℚ)/18014398509481984) *
          2 ^ ((52:ℤ) - (-3)) = 7205759403792794 by norm_num]
      exact rne_low _ 7205759403792794 (by norm_num) (by norm_num)
        (by norm_num))]
  norm_num

lemma flc_9subT : fl (28823037615171175/36028797018963968) =
    3602879701896397/4503599627370496 := by
  rw [fl_eq_of _ (-1) 7205759403792794 (by norm_num) (by norm_num)
    (by norm_num) (by norm_num)
    (by
      rw [show ((28823037615171175:ℚ)/36028797018963968) *
          2 ^ ((52:ℤ) - (-1)) = 28823037615171175/4 by norm_num]
      exact rne_high _ 7205759403792793 (by norm_num) (by norm_num)
        (by norm_num))]
  norm_num

lemma flc_9sub2T : fl (12610078956637389/18014398509481984) =
    3152519739159347/4503599627370496 := by
  rw [fl_eq_of _ (-1) 6305039478318694 (by norm_num) (by norm_num)
    (by norm_num) (by norm_num)
    (by
      rw [show ((12610078956637389:ℚ)/18014398509481984) *
          2 ^ ((52:ℤ) - (-1)) = 12610078956637389/2 by norm_num]
      exact rne_tie_even _ 6305039478318694 (by norm_num) (by norm_num)
        (by norm_num) (by norm_num))]
  norm_num

lemma flc_7subT : fl (21617278211378379/36028797018963968) =
    5404319552844595/9007199254740992 := by
  rw [fl_eq_of _ (-1) 5404319552844595 (by norm_num) (by norm_num)
    (by norm_num) (by norm_num)
    (by
      rw [show ((21617278211378379:ℚ)/36028797018963968) *
          2 ^ ((52:ℤ) - (-1)) = 21617278211378379/4 by norm_num]
      exact rne_high _ 5404319552844594 (by norm_num) (by norm_num)
        (by norm_num))]
  norm_num

lemma flc_7sub2T : fl (9007199254740991/18014398509481984) =
    9007199254740991/18014398509481984 := by
  rw [fl_eq_of _ (-2) 9007199254740991 (by norm_num) (by norm_num)
    (by norm_num) (by norm_num)
    (by
      rw [show ((9007199254740991:ℚ)/18014398509481984) *
          2 ^ ((52:ℤ) - (-2)) = 9007199254740991 by norm_num]
      exact rne_low _ 9007199254740991 (by norm_num) (by norm_num)
        (by norm_num))]
  norm_num

/-! Step-confidence values at loop indices 0, 1, 2. -/

lemma mulD_zero_T : mulD ((0:ℕ):ℚ) (fl (1/10)) = 0 := by
  rw [mulD, show ((0:ℕ):ℚ) * fl (1/10) = 0 from by push_cast; ring, fl_zero]

lemma mulD_one_T : mulD ((1:ℕ):ℚ) (fl (1/10)) =
    3602879701896397/36028797018963968 := by
  rw [mulD, show ((1:ℕ):ℚ) * fl (1/10) = fl (1/10) from by push_cast; ring,
    flc_T]
  exact flc_vT

lemma mulD_two_T : mulD ((2:ℕ):ℚ) (fl (1/10)) =
    3602879701896397/18014398509481984 := by
  rw [mulD, flc_T, show ((2:ℕ):ℚ) * ((3602879701896397:ℚ)/36028797018963968)
    = 3602879701896397/18014398509481984 from by push_cast; norm_num]
  exact flc_2vT

lemma maxTriggerConfidence_nil (text : String) :
    maxTriggerConfidence text [] = 0 := rfl

lemma maxTriggerConfidence_cons (text : String) (t : MeetingTrigger)
    (ts : List MeetingTrigger) :
    maxTriggerConfidence text (t :: ts) =
      max (triggerConfidence text t) (maxTriggerConfidence text ts) := rfl

lemma maxTriggerConfidence_nonneg (text : String) (ts : List MeetingTrigger) :
    0 ≤ maxTriggerConfidence text ts := by
  induction ts with
  | nil => simp [maxTriggerConfidence]
  | cons t ts ih =>
    rw [maxTriggerConfidence_cons]
    exact le_trans ih (le_max_right _ _)

lemma triggerConfidence_of_no_match (text : String) (t : MeetingTrigger)
    (h : triggerMatches text t = 0) : triggerConfidence text t = 0 := by
  rw [triggerConfidence, h]
  rw [show divD ((0:ℕ):ℚ) ((t.keywords.length : ℕ):ℚ) = 0 from by
    rw [divD, Nat.cast_zero, zero_div, fl_zero]]
  rw [show mulD (fl t.weight) 0 = 0 from by rw [mulD, mul_zero, fl_zero]]
  exact min_eq_left (by norm_num)

/-- The classifier loop computes the running maximum of the per-group
confidences and keeps the type of the earliest group that attains it. -/
lemma classifyLoop_eq (text : String) :
    ∀ (ts : List MeetingTrigger) (a : ℚ) (s : String), 0 ≤ a →
      classifyLoop text ts (a, s) =
        (max a (maxTriggerConfidence text ts),
          if a < maxTriggerConfidence text ts then
            firstTypeAttaining text ts (maxTriggerConfidence text ts)
          else s) := by
  intro ts
  induction ts with
  | nil =>
    intro a s ha
    rw [classifyLoop, maxTriggerConfidence_nil, max_eq_left ha,
      if_neg (not_lt.mpr ha)]
  | cons t ts ih =>
    intro a s ha
    have hM : 0 ≤ maxTriggerConfidence text ts :=
      maxTriggerConfidence_nonneg text ts
    rw [classifyLoop, maxTriggerConfidence_cons]
    by_cases hm : triggerMatches text t > 0
    · rw [if_pos hm]
      by_cases hca : triggerConfidence text t > a
      · rw [if_pos hca, ih _ _ (le_of_lt (lt_of_le_of_lt ha hca))]
        have hfst : max a (max (triggerConfidence text t)
            (maxTriggerConfidence text ts)) =
            max (triggerConfidence text t) (maxTriggerConfidence text ts) :=
          max_eq_right (le_trans (le_of_lt hca) (le_max_left _ _))
        have hlt : a < max (triggerConfidence text t)
            (maxTriggerConfidence text ts) :=
          lt_of_lt_of_le hca (le_max_left _ _)
        rw [hfst, if_pos hlt]
        by_cases hcM : triggerConfidence text t < maxTriggerConfidence text ts
        · rw [if_pos hcM, max_eq_right (le_of_lt hcM)]
          simp only [firstTypeAttaining]
          rw [List.find?_cons_of_neg _
            (by simp only [decide_eq_true_eq]; exact ne_of_lt hcM)]
        · rw [if_neg hcM, max_eq_left (not_lt.mp hcM)]
          simp only [firstTypeAttaining]
          rw [List.find?_cons_of_pos _ (by simp)]
      · rw [if_neg hca, ih _ _ ha]
        have hc : triggerConfidence text t ≤ a := not_lt.mp hca
        have hfst : max a (max (triggerConfidence text t)
            (maxTriggerConfidence text ts)) =
            max a (maxTriggerConfidence text ts) := by
          rw [← max_assoc, max_eq_left hc]
        rw [hfst]
        have hiff : a < max (triggerConfidence text t)
            (maxTriggerConfidence text ts) ↔
            a < maxTriggerConfidence text ts := by
          rw [lt_max_iff]
          exact ⟨fun h => h.elim (fun h' => absurd h' (not_lt.mpr hc)) id,
            fun h => Or.inr h⟩
        by_cases haM : a < maxTriggerConfidence text ts
        · rw [if_pos haM, if_pos (hiff.mpr haM),
            max_eq_right (le_trans hc (le_of_lt haM))]
          simp only [firstTypeAttaining]
          rw [List.find?_cons_of_neg _
            (by simp only [decide_eq_true_eq]
                exact ne_of_lt (lt_of_le_of_lt hc haM))]
        · rw [if_neg haM, if_neg (fun h => haM (hiff.mp h))]
    · rw [if_neg hm, ih _ _ ha]
      have hc0 : triggerConfidence text t = 0 :=
        triggerConfidence_of_no_match text t (Nat.eq_zero_of_not_pos hm)
      rw [hc0, max_eq_right hM]
      by_cases haM : a < maxTriggerConfidence text ts
      · rw [if_pos haM, if_pos haM]
        simp only [firstTypeAttaining]
        rw [List.find?_cons_of_neg _
          (by simp only [decide_eq_true_eq]
              rw [hc0]
              exact ne_of_lt (lt_of_le_of_lt ha haM))]
      · rw [if_neg haM, if_neg haM]

lemma classifyMeetingTriggers_fst (messages : List String) :
    (classifyMeetingTriggers messages).1 = specWinningConfidence messages := by
  rw [classifyMeetingTriggers, classifyLoop_eq _ _ _ _ (le_refl 0)]
  exact max_eq_right (maxTriggerConfidence_nonneg _ _)

lemma triggerConfidence_le_one (text : String) (t : MeetingTrigger) :
    triggerConfidence text t ≤ 1 :=
  min_le_right _ _

lemma maxTriggerConfidence_le_one (text : String) (ts : List MeetingTrigger) :
    maxTriggerConfidence text ts ≤ 1 := by
  induction ts with
  | nil => norm_num [maxTriggerConfidence]
  | cons t ts ih =>
    rw [maxTriggerConfidence_cons]
    exact max_le (triggerConfidence_le_one text t) ih

lemma specWinningConfidence_nil : specWinningConfidence [] = 0 := by
  simp only [specWinningConfidence, meetingTriggers, maxTriggerConfidence,
    List.foldr]
  rw [triggerConfidence_of_no_match _ _ (by decide),
    triggerConfidence_of_no_match _ _ (by decide),
    triggerConfidence_of_no_match _ _ (by decide),
    triggerConfidence_of_no_match _ _ (by decide),
    triggerConfidence_of_no_match _ _ (by decide)]
  norm_num

/-- C9: the primary suggestion type is the type of the group appearing
earliest in the fixed trigger list among those attaining the maximal
confidence — the running maximum is only replaced on strictly greater
confidence, so earlier groups win ties. -/
theorem classifyPrimaryType_earliest_argmax (messages : List String) :
    (classifyMeetingTriggers messages).2 = specPrimaryType messages := by
  rw [classifyMeetingTriggers,
    classifyLoop_eq (allTriggerText messages) meetingTriggers 0 "general"
      (le_refl 0)]
  dsimp only
  rw [specPrimaryType, specWinningConfidence]
  by_cases h :
      (0 : ℚ) < maxTriggerConfidence (allTriggerText messages) meetingTriggers
  · rw [if_pos h]
  · rw [if_neg h]
    have h0 : maxTriggerConfidence (allTriggerText messages) meetingTriggers
        = 0 :=
      le_antisymm (not_lt.mp h) (maxTriggerConfidence_nonneg _ _)
    have hle : triggerConfidence (allTriggerText messages) generalTrigger ≤
        maxTriggerConfidence (allTriggerText messages) meetingTriggers := by
      rw [show meetingTriggers = generalTrigger ::
        [projectTrigger, discussionTrigger, urgentTrigger, presentationTrigger]
        from rfl, maxTriggerConfidence_cons]
      exact le_max_left _ _
    have hge : (0 : ℚ) ≤
        triggerConfidence (allTriggerText messages) generalTrigger := by
      refine le_min (mulD_nonneg _ _
        (fl_nonneg _ (by norm_num [generalTrigger]))
        (divD_nonneg _ _ (Nat.cast_nonneg _) (Nat.cast_nonneg _)))
        (by norm_num)
    have hg0 : triggerConfidence (allTriggerText messages) generalTrigger = 0 :=
      le_antisymm (h0 ▸ hle) hge
    rw [h0]
    simp only [firstTypeAttaining, meetingTriggers]
    rw [List.find?_cons_of_pos _ (by simp only [decide_eq_true_eq]; exact hg0)]
    rfl

/-- C2 (counterexample): for the message list
`["discuss decision strategy brainstorm"]` the claimed exact formula yields
winning confidence 0.7 = 7/10, and in exact arithmetic all three step
confidences 0.7, 0.6, 0.5 stay at or above 0.5, so the claim predicts three
suggestions; the program, computing in IEEE doubles, reaches
`0.7 - 2 * 0.1 = 0.49999999999999994 < 0.5` at the third step and emits only
two. -/
theorem analyzeMeetings_doubles_counterexample :
    (meetingTriggers.map fun t =>
      min (t.weight *
        ((triggerMatches (allTriggerText
          ["discuss decision strategy brainstorm"]) t : ℚ) /
          (t.keywords.length : ℚ))) 1).foldr max 0 = 7/10 ∧
    ((1:ℚ)/2 ≤ 7/10 - 0 * (1/10) ∧ (1:ℚ)/2 ≤ 7/10 - 1 * (1/10) ∧
      (1:ℚ)/2 ≤ 7/10 - 2 * (1/10)) ∧
    (analyzeMessagesForMeetings ["discuss decision strategy brainstorm"]
      ["u1"] "team" 0).length = 2 := by
  refine ⟨?_, by norm_num, ?_⟩
  · rw [show meetingTriggers = [generalTrigger, projectTrigger,
      discussionTrigger, urgentTrigger, presentationTrigger] from rfl]
    simp only [List.map, List.foldr]
    rw [show triggerMatches (allTriggerText
        ["discuss decision strategy brainstorm"]) generalTrigger = 0 from by
        decide,
      show triggerMatches (allTriggerText
        ["discuss decision strategy brainstorm"]) projectTrigger = 0 from by
        decide,
      show triggerMatches (allTriggerText
        ["discuss decision strategy brainstorm"]) discussionTrigger = 4 from by
        decide,
      show triggerMatches (allTriggerText
        ["discuss decision strategy brainstorm"]) urgentTrigger = 0 from by
        decide,
      show triggerMatches (allTriggerText
        ["discuss decision strategy brainstorm"]) presentationTrigger = 0
        from by decide]
    norm_num [generalTrigger, projectTrigger, discussionTrigger,
      urgentTrigger, presentationTrigger, min_def, max_def]
  · have hd : triggerMatches (allTriggerText
        ["discuss decision strategy brainstorm"]) discussionTrigger = 4 := by
      decide
    have hcd : triggerConfidence (allTriggerText
        ["discuss decision strategy brainstorm"]) discussionTrigger =
        3152519739159347/4503599627370496 := by
      rw [triggerConfidence, hd]
      rw [show ((discussionTrigger.keywords.length : ℚ)) = (4:ℚ) from by
        norm_num [discussionTrigger]]
      rw [show (((4:ℕ)):ℚ) = (4:ℚ) from by norm_num]
      rw [show divD (4:ℚ) (4:ℚ) = 1 from by
        rw [divD, show (4:ℚ)/(4:ℚ) = 1 from by norm_num]; exact flc_one]
      rw [show discussionTrigger.weight = 7/10 from rfl]
      rw [mulD, flc_7, mul_one, flc_v7]
      exact min_eq_left (by norm_num)
    have hmc : specWinningConfidence ["discuss decision strategy brainstorm"]
        = 3152519739159347/4503599627370496 := by
      simp only [specWinningConfidence, meetingTriggers, maxTriggerConfidence,
        List.foldr]
      rw [hcd, triggerConfidence_of_no_match _ _ (by decide),
        triggerConfidence_of_no_match _ _ (by decide),
        triggerConfidence_of_no_match _ _ (by decide),
        triggerConfidence_of_no_match _ _ (by decide)]
      norm_num
    have hth : ¬(specWinningConfidence ["discuss decision strategy brainstorm"]
        < fl (3/5)) := by
      rw [hmc, flc_35]; norm_num
    have hs0 : stepConfD ((3152519739159347:ℚ)/4503599627370496) 0 =
        3152519739159347/4503599627370496 := by
      rw [stepConfD, mulD_zero_T, subD, sub_zero]
      exact flc_v7
    have hs1 : stepConfD ((3152519739159347:ℚ)/4503599627370496) 1 =
        5404319552844595/9007199254740992 := by
      rw [stepConfD, mulD_one_T, subD,
        show (3152519739159347:ℚ)/4503599627370496 -
          3602879701896397/36028797018963968 =
          21617278211378379/36028797018963968 from by norm_num]
      exact flc_7subT
    have hs2 : stepConfD ((3152519739159347:ℚ)/4503599627370496) 2 =
        9007199254740991/18014398509481984 := by
      rw [stepConfD, mulD_two_T, subD,
        show (3152519739159347:ℚ)/4503599627370496 -
          3602879701896397/18014398509481984 =
          9007199254740991/18014398509481984 from by norm_num]
      exact flc_7sub2T
    have e0 : ¬((3152519739159347:ℚ)/4503599627370496 < 1/2) := by norm_num
    have e1 : ¬((5404319552844595:ℚ)/9007199254740992 < 1/2) := by norm_num
    have e2 : (9007199254740991:ℚ)/18014398509481984 < 1/2 := by norm_num
    simp only [analyzeMessagesForMeetings, classifyMeetingTriggers_fst]
    rw [if_neg (by decide :
        ¬(List.length ["discuss decision strategy brainstorm"] = 0)),
      if_neg hth, hmc, buildSuggestions, hs0, hs1, hs2,
      if_neg e0, if_neg e1, if_pos e2]
    rfl

/-- C2: the winning confidence of the meeting-trigger classifier is the
largest per-group double value weight × (matched keywords / group size)
capped at 1 (and hence never exceeds 1); a winning confidence below the
double 0.6 yields no suggestions; otherwise suggestions are emitted at
offsets now+2h, now+24h, now+48h for exactly the initial run of loop indices
0, 1, 2 whose double step confidence maxConfidence - i*0.1 stays at or above
0.5 — the loop breaks at the first index falling below — each suggestion
carrying its step confidence rounded to two decimals. -/
theorem analyzeMeetings_suggestions (msgs pids : List String)
    (chatName : String) (now : ℤ) :
    (classifyMeetingTriggers msgs).1 = specWinningConfidence msgs ∧
    specWinningConfidence msgs ≤ 1 ∧
    (specWinningConfidence msgs < fl (3/5) →
      analyzeMessagesForMeetings msgs pids chatName now = []) ∧
    (fl (3/5) ≤ specWinningConfidence msgs →
      (analyzeMessagesForMeetings msgs pids chatName now).length =
        ((List.range 3).takeWhile fun i : ℕ =>
          decide ((1:ℚ)/2 ≤
            stepConfD (specWinningConfidence msgs) i)).length ∧
      (∀ i (h : i < (analyzeMessagesForMeetings msgs pids chatName now).length),
        ((analyzeMessagesForMeetings msgs pids chatName now).get
            ⟨i, h⟩).suggested_time =
          now + ([7200000, 86400000, 172800000] : List ℤ).getD i 0 ∧
        ((analyzeMessagesForMeetings msgs pids chatName now).get
            ⟨i, h⟩).confidence =
          round2D (stepConfD (specWinningConfidence msgs) i))) := by
  refine ⟨classifyMeetingTriggers_fst msgs,
    maxTriggerConfidence_le_one _ _, ?_, ?_⟩
  · intro h
    simp only [analyzeMessagesForMeetings, classifyMeetingTriggers_fst]
    by_cases h1 : msgs.length = 0
    · rw [if_pos h1]
    · rw [if_neg h1, if_pos h]
  · intro h
    have hne : msgs.length ≠ 0 := by
      intro h0
      rw [List.length_eq_zero] at h0
      rw [h0, specWinningConfidence_nil, flc_35] at h
      norm_num at h
    have hA : analyzeMessagesForMeetings msgs pids chatName now =
        buildSuggestions (specWinningConfidence msgs)
          (classifyMeetingTriggers msgs).2 chatName msgs pids now := by
      simp only [analyzeMessagesForMeetings, classifyMeetingTriggers_fst]
      rw [if_neg hne, if_neg (not_lt.mpr h)]
    rw [hA, buildSuggestions, show List.range 3 = [0, 1, 2] from rfl]
    set mc := specWinningConfidence msgs
    by_cases c0 : stepConfD mc 0 < 1/2
    · rw [if_pos c0]
      have hp0 : (decide ((1:ℚ)/2 ≤ stepConfD mc 0)) = false :=
        decide_eq_false (not_le.mpr c0)
      refine ⟨?_, ?_⟩
      · simp only [List.takeWhile, hp0]
        rfl
      · intro i hi
        simp only [List.length_nil] at hi
        omega
    · rw [if_neg c0]
      have hp0 : (decide ((1:ℚ)/2 ≤ stepConfD mc 0)) = true :=
        decide_eq_true (not_lt.mp c0)
      by_cases c1 : stepConfD mc 1 < 1/2
      · rw [if_pos c1]
        have hp1 : (decide ((1:ℚ)/2 ≤ stepConfD mc 1)) = false :=
          decide_eq_false (not_le.mpr c1)
        refine ⟨?_, ?_⟩
        · simp only [List.takeWhile, hp0, hp1]
          rfl
        · intro i hi
          have hi1 : i < 1 := by simpa using hi
          interval_cases i
          refine ⟨?_, rfl⟩
          show now + 2 * 60 * 60 * 1000 = now + 7200000
          norm_num
      · rw [if_neg c1]
        have hp1 : (decide ((1:ℚ)/2 ≤ stepConfD mc 1)) = true :=
          decide_eq_true (not_lt.mp c1)
        by_cases c2 : stepConfD mc 2 < 1/2
        · rw [if_pos c2]
          have hp2 : (decide ((1:ℚ)/2 ≤ stepConfD mc 2)) = false :=
            decide_eq_false (not_le.mpr c2)
          refine ⟨?_, ?_⟩
          · simp only [List.takeWhile, hp0, hp1, hp2]
            rfl
          · intro i hi
            have hi2 : i < 2 := by simpa using hi
            interval_cases i
            · refine ⟨?_, rfl⟩
              show now + 2 * 60 * 60 * 1000 = now + 7200000
              norm_num
            · refine ⟨?_, rfl⟩
              show now + 24 * 60 * 60 * 1000 = now + 86400000
              norm_num
        · rw [if_neg c2]
          have hp2 : (decide ((1:ℚ)/2 ≤ stepConfD mc 2)) = true :=
            decide_eq_true (not_lt.mp c2)
          refine ⟨?_, ?_⟩
          · simp only [List.takeWhile, hp0, hp1, hp2]
            rfl
          · intro i hi
            have hi3 : i < 3 := by simpa using hi
            interval_cases i
            · refine ⟨?_, rfl⟩
              show now + 2 * 60 * 60 * 1000 = now + 7200000
              norm_num
            · refine ⟨?_, rfl⟩
              show now + 24 * 60 * 60 * 1000 = now + 86400000
              norm_num
            · refine ⟨?_, rfl⟩
              show now + 48 * 60 * 60 * 1000 = now + 172800000
              norm_num

theorem analyzeMeetings_suggestions_witness :
    fl (3/5) ≤ specWinningConfidence ["meeting meet schedule call"] ∧
    (analyzeMessagesForMeetings ["meeting meet schedule call"] ["u1"] "team"
      0).length = 3 := by
  have hg : triggerMatches (allTriggerText ["meeting meet schedule call"])
      generalTrigger = 4 := by decide
  have hcg : triggerConfidence (allTriggerText ["meeting meet schedule call"])
      generalTrigger = 8106479329266893/9007199254740992 := by
    rw [triggerConfidence, hg]
    rw [show ((generalTrigger.keywords.length : ℚ)) = (4:ℚ) from by
      norm_num [generalTrigger]]
    rw [show (((4:ℕ)):ℚ) = (4:ℚ) from by norm_num]
    rw [show divD (4:ℚ) (4:ℚ) = 1 from by
      rw [divD, show (4:ℚ)/(4:ℚ) = 1 from by norm_num]; exact flc_one]
    rw [show generalTrigger.weight = 9/10 from rfl]
    rw [mulD, flc_9, mul_one, flc_v9]
    exact min_eq_left (by norm_num)
  have hmc : specWinningConfidence ["meeting meet schedule call"] =
      8106479329266893/9007199254740992 := by
    simp only [specWinningConfidence, meetingTriggers, maxTriggerConfidence,
      List.foldr]
    rw [hcg, triggerConfidence_of_no_match _ _ (by decide),
      triggerConfidence_of_no_match _ _ (by decide),
      triggerConfidence_of_no_match _ _ (by decide),
      triggerConfidence_of_no_match _ _ (by decide)]
    norm_num
  have hle : fl (3/5) ≤
      specWinningConfidence ["meeting meet schedule call"] := by
    rw [hmc, flc_35]; norm_num
  have hs0 : stepConfD ((8106479329266893:ℚ)/9007199254740992) 0 =
      8106479329266893/9007199254740992 := by
    rw [stepConfD, mulD_zero_T, subD, sub_zero]
    exact flc_v9
  have hs1 : stepConfD ((8106479329266893:ℚ)/9007199254740992) 1 =
      3602879701896397/4503599627370496 := by
    rw [stepConfD, mulD_one_T, subD,
      show (8106479329266893:ℚ)/9007199254740992 -
        3602879701896397/36028797018963968 =
        28823037615171175/36028797018963968 from by norm_num]
    exact flc_9subT
  have hs2 : stepConfD ((8106479329266893:ℚ)/9007199254740992) 2 =
      3152519739159347/4503599627370496 := by
    rw [stepConfD, mulD_two_T, subD,
      show (8106479329266893:ℚ)/9007199254740992 -
        3602879701896397/18014398509481984 =
        12610078956637389/18014398509481984 from by norm_num]
    exact flc_9sub2T
  have hp0 : (decide ((1:ℚ)/2 ≤
      stepConfD ((8106479329266893:ℚ)/9007199254740992) 0)) = true :=
    decide_eq_true (by rw [hs0]; norm_num)
  have hp1 : (decide ((1:ℚ)/2 ≤
      stepConfD ((8106479329266893:ℚ)/9007199254740992) 1)) = true :=
    decide_eq_true (by rw [hs1]; norm_num)
  have hp2 : (decide ((1:ℚ)/2 ≤
      stepConfD ((8106479329266893:ℚ)/9007199254740992) 2)) = true :=
    decide_eq_true (by rw [hs2]; norm_num)
  obtain ⟨-, -, -, h4⟩ :=
    analyzeMeetings_suggestions ["meeting meet schedule call"] ["u1"] "team" 0
  obtain ⟨hlen, -⟩ := h4 hle
  refine ⟨hle, ?_⟩
  rw [hlen, show List.range 3 = [0, 1, 2] from rfl]
  simp only [hmc, List.takeWhile, hp0, hp1, hp2]
  rfl

/-! ### Lemmas and theorems for claims C5, C6, C7, C8 -/

lemma eq_empty_of_toList_eq_nil (s : String) (h : s.toList = []) : s = "" := by
  cases s with
  | mk data =>
    have h' : data = [] := h
    subst h'
    rfl

lemma toList_ne_nil_of_ne_empty (s : String) (h : s ≠ "") : s.toList ≠ [] :=
  fun hn => h (eq_empty_of_toList_eq_nil s hn)

lemma strMk_ne_empty (cs : List Char) (h : cs ≠ []) : String.mk cs ≠ "" :=
  fun he => h (congrArg String.toList he)

lemma replaceAll_of_empty (p r : String) : replaceAll "" p r = "" := rfl

lemma replaceSeq_of_empty (subs : List (String × String)) :
    replaceSeq "" subs = "" := by
  induction subs with
  | nil => rfl
  | cons a l ih =>
    simp only [replaceSeq, List.foldl_cons] at *
    rw [replaceAll_of_empty]
    exact ih

lemma replaceAllAux_ne_nil (p r : List Char) (hr : r ≠ []) (fuel : Nat)
    (c : Char) (cs : List Char) :
    replaceAllAux p r (Nat.succ fuel) (c :: cs) ≠ [] := by
  rw [replaceAllAux]
  split_ifs with h
  · intro hx
    exact hr (List.append_eq_nil.mp hx).1
  · exact List.cons_ne_nil c _

lemma replaceAll_ne_empty (s p r : String) (hs : s ≠ "") (hr : r ≠ "") :
    replaceAll s p r ≠ "" := by
  unfold replaceAll
  apply strMk_ne_empty
  cases hc : s.toList with
  | nil => exact absurd (eq_empty_of_toList_eq_nil s hc) hs
  | cons c cs =>
    have hlen : s.length = Nat.succ cs.length := by
      rw [show s.length = s.toList.length from rfl, hc]
      rfl
    rw [hlen]
    exact replaceAllAux_ne_nil _ _
      (fun he => hr (eq_empty_of_toList_eq_nil r he)) _ _ _

lemma replaceSeq_ne_empty (subs : List (String × String))
    (hsub : ∀ pr ∈ subs, pr.2 ≠ "") :
    ∀ s : String, s ≠ "" → replaceSeq s subs ≠ "" := by
  induction subs with
  | nil => exact fun s hs => hs
  | cons a l ih =>
    intro s hs
    simp only [replaceSeq, List.foldl_cons]
    exact ih (fun pr h => hsub pr (List.mem_cons_of_mem a h)) _
      (replaceAll_ne_empty s a.1 a.2 hs
        (hsub a (List.mem_cons_self a l)))

lemma translationTable_repl_ne_empty (f t : String) :
    ∀ pr ∈ translationTable f t, pr.2 ≠ "" := by
  intro pr h
  unfold translationTable at h
  split_ifs at h <;> first
    | exact absurd h (List.not_mem_nil pr)
    | (fin_cases h <;> decide)

lemma mock_translated_of_empty (f t : String) :
    (mockTranslationService "" f t).translated = "" := by
  simp only [mockTranslationService]
  split_ifs <;> first | rfl | exact replaceSeq_of_empty _

lemma mock_translated_ne_empty (m f t : String) (hm : m ≠ "") :
    (mockTranslationService m f t).translated ≠ "" := by
  simp only [mockTranslationService]
  split_ifs <;> first
    | exact hm
    | exact replaceSeq_ne_empty _ (translationTable_repl_ne_empty _ _) _ hm

lemma head?_filter_some {p : α → Bool} {l : List α} {c : α}
    (h : (l.filter p).head? = some c) : c ∈ l ∧ p c = true := by
  cases hf : l.filter p with
  | nil => rw [hf] at h; cases h
  | cons x xs =>
    rw [hf] at h
    injection h with h'
    have hx : x ∈ l.filter p := by
      rw [hf]
      exact List.mem_cons_self _ _
    rw [h'] at hx
    exact List.mem_filter.mp hx

/-- C5: a second `translateMessage` call with the same message, languages and
user returns the same translated text and the stored relevance score as
confidence and does not insert a second `translation_cache` row; a cache-miss
first call inserts exactly one cache row whose expiry is 24 hours after its
creation time. -/
theorem translate_cache_second_call (input : TranslateMessageInput)
    (now₁ now₂ : ℤ) (st : List AIContextRow) :
    (translateMessage input now₂
        (translateMessage input now₁ st).2).1.translated_text =
      (translateMessage input now₁ st).1.translated_text ∧
    (translateMessage input now₂ (translateMessage input now₁ st).2).2 =
      (translateMessage input now₁ st).2 ∧
    (∃ row ∈ (translateMessage input now₁ st).2,
      isCacheRowFor input row = true ∧
      (translateMessage input now₂
        (translateMessage input now₁ st).2).1.confidence =
        row.relevance_score) ∧
    (st.filter (isCacheRowFor input) = [] →
      ∃ row, (translateMessage input now₁ st).2 = st ++ [row] ∧
        isCacheRowFor input row = true ∧ row.created_at = now₁ ∧
        row.expires_at = some (now₁ + 24 * 60 * 60 * 1000)) := by
  rcases hcase : (st.filter (isCacheRowFor input)).head? with _ | c
  · have hnil : st.filter (isCacheRowFor input) = [] :=
      List.head?_eq_none_iff.mp hcase
    have hrow : isCacheRowFor input (freshCacheRow input now₁) = true := by
      simp [isCacheRowFor, freshCacheRow]
    have h2 : ((st ++ [freshCacheRow input now₁]).filter
        (isCacheRowFor input)).head? = some (freshCacheRow input now₁) := by
      rw [List.filter_append st [freshCacheRow input now₁], hnil,
        List.nil_append, List.filter_cons_of_pos hrow, List.filter_nil]
      rfl
    refine ⟨?_, ?_, ?_, ?_⟩
    · simp only [translateMessage, hcase, h2]
      simp only [freshCacheRow]
      by_cases hm : input.message = ""
      · have hT : (mockTranslationService input.message input.from_language
            input.to_language).translated = "" := by
          rw [hm]
          exact mock_translated_of_empty _ _
        rw [hT, if_pos rfl, hm]
      · rw [if_neg (mock_translated_ne_empty _ _ _ hm)]
    · simp only [translateMessage, hcase, h2]
    · refine ⟨freshCacheRow input now₁, ?_, hrow, ?_⟩
      · simp only [translateMessage, hcase]
        exact List.mem_append_right _ (List.mem_singleton.mpr rfl)
      · simp only [translateMessage, hcase, h2]
    · intro _
      exact ⟨freshCacheRow input now₁, by simp only [translateMessage, hcase],
        hrow, rfl, rfl⟩
  · obtain ⟨hcmem, hcp⟩ := head?_filter_some hcase
    refine ⟨?_, ?_, ?_, ?_⟩
    · simp only [translateMessage, hcase]
    · simp only [translateMessage, hcase]
    · exact ⟨c, by simp only [translateMessage, hcase]; exact hcmem, hcp,
        by simp only [translateMessage, hcase]⟩
    · intro hmiss
      rw [hmiss] at hcase
      cases hcase

theorem translate_cache_second_call_witness :
    ([] : List AIContextRow).filter
      (isCacheRowFor ⟨"hello", "en", "es", "u1", false⟩) = [] ∧
    ∃ row,
      (translateMessage ⟨"hello", "en", "es", "u1", false⟩ 0 []).2 =
        [] ++ [row] ∧
      isCacheRowFor ⟨"hello", "en", "es", "u1", false⟩ row = true ∧
      row.created_at = 0 ∧
      row.expires_at = some (0 + 24 * 60 * 60 * 1000) :=
  ⟨rfl,
    (translate_cache_second_call ⟨"hello", "en", "es", "u1", false⟩ 0 0
      []).2.2.2 rfl⟩

/-- C6 counterexample: a same-language translation (en → en) on an empty
`ai_context` table does change the table — the handler inserts a cache row
even though the translation service short-circuited. -/
theorem translate_same_language_counterexample :
    effectiveFromLang "hi" "en" = "en" ∧
    (translateMessage ⟨"hi", "en", "en", "u1", false⟩ 0 []).2 ≠
      ([] : List AIContextRow) := by
  refine ⟨by decide, ?_⟩
  intro h
  have hlen : ((translateMessage ⟨"hi", "en", "en", "u1", false⟩ 0 []).2).length
      = 1 := rfl
  rw [h] at hlen
  exact absurd hlen (by decide)

/-- C6 amended: a cache-missing `translateMessage` call whose effective source
language equals the target language returns the original text with confidence
1.0, but it does insert one `translation_cache` row (relevance score 1,
expiring 24 hours later) — the short-circuit skips only the substitution, not
the caching. -/
theorem translate_same_language_caches (input : TranslateMessageInput)
    (now : ℤ) (st : List AIContextRow)
    (hsame : effectiveFromLang input.message input.from_language =
      input.to_language)
    (hmiss : st.filter (isCacheRowFor input) = []) :
    (translateMessage input now st).1.translated_text = input.message ∧
    (translateMessage input now st).1.confidence = 1 ∧
    (translateMessage input now st).2 = st ++ [freshCacheRow input now] ∧
    (freshCacheRow input now).relevance_score = 1 ∧
    (freshCacheRow input now).expires_at =
      some (now + 24 * 60 * 60 * 1000) := by
  have hcase : (st.filter (isCacheRowFor input)).head? = none := by
    rw [hmiss]
    rfl
  have hmock : mockTranslationService input.message input.from_language
      input.to_language =
      ⟨input.message, 1,
        if input.from_language = "auto" then
          some (detectLanguage input.message) else none⟩ := by
    simp only [mockTranslationService]
    rw [if_pos hsame]
  refine ⟨?_, ?_, ?_, ?_, rfl⟩
  · simp only [translateMessage, hcase, hmock]
  · simp only [translateMessage, hcase, hmock]
  · simp only [translateMessage, hcase]
  · simp only [freshCacheRow, hmock]

theorem translate_same_language_caches_witness :
    effectiveFromLang "good day" "en" = "en" ∧
    (translateMessage ⟨"good day", "en", "en", "u1", false⟩ 0
      []).1.translated_text = "good day" ∧
    (translateMessage ⟨"good day", "en", "en", "u1", false⟩ 0
      []).1.confidence = 1 := by
  have h := translate_same_language_caches ⟨"good day", "en", "en", "u1",
    false⟩ 0 [] (by decide) rfl
  exact ⟨by decide, h.1, h.2.1⟩

lemma mem_insertSorted {pr : α → α → Bool} {x a : α} :
    ∀ {l : List α}, a ∈ insertSorted pr x l ↔ a = x ∨ a ∈ l := by
  intro l
  induction l with
  | nil => simp [insertSorted]
  | cons y ys ih =>
    simp only [insertSorted]
    split_ifs
    · rw [List.mem_cons, ih, List.mem_cons]
      tauto
    · rw [List.mem_cons, List.mem_cons]

lemma mem_stableSortBy {pr : α → α → Bool} {a : α} :
    ∀ {l : List α}, a ∈ stableSortBy pr l ↔ a ∈ l := by
  intro l
  induction l with
  | nil => simp [stableSortBy]
  | cons x xs ih =>
    rw [stableSortBy, mem_insertSorted, ih, List.mem_cons]

/-- C7 counterexample: the AI-context search returns a row whose expiry (epoch
0) lies in the past of the reference time 1 — expired rows are not excluded
from this retrieval. -/
theorem context_expiry_counterexample :
    ¬ (∀ r ∈ searchAIContext ⟨"u1", none, "summary", 10⟩ [expiredSummaryRow],
        r.expires_at = none ∨ ∃ e, r.expires_at = some e ∧ (1 : ℤ) ≤ e) := by
  intro hall
  have hm : expiredSummaryRow ∈
      searchAIContext ⟨"u1", none, "summary", 10⟩ [expiredSummaryRow] := by
    rw [show searchAIContext ⟨"u1", none, "summary", 10⟩ [expiredSummaryRow] =
      [expiredSummaryRow] from rfl]
    exact List.mem_singleton.mpr rfl
  rcases hall _ hm with h | ⟨e, he, hle⟩
  · exact absurd h (by decide)
  · rw [show expiredSummaryRow.expires_at = some 0 from rfl] at he
    injection he with h'
    rw [← h'] at hle
    exact absurd hle (by decide)

/-- C7 amended: the chat-completion context fetch excludes rows whose
`expires_at` lies before the reference time, but the AI-context search and the
translation-cache lookup apply no expiry filter: the search returns an expired
row, and a `translateMessage` call at time 1000 answers from a cache row that
expired at epoch 0 (leaving the table unchanged, so no fresh translation was
made). -/
theorem context_expiry_filters :
    (∀ (userId chatId : String) (now : ℤ) (st : List AIContextRow)
        (r : AIContextRow), r ∈ fetchChatContext userId chatId now st →
        r.expires_at = none ∨ ∃ e, r.expires_at = some e ∧ now ≤ e) ∧
    searchAIContext ⟨"u1", none, "summary", 10⟩ [expiredSummaryRow] =
      [expiredSummaryRow] ∧
    (translateMessage ⟨"hello", "en", "es", "u1", false⟩ 1000
        [expiredCacheRow]).2 = [expiredCacheRow] ∧
    (translateMessage ⟨"hello", "en", "es", "u1", false⟩ 1000
        [expiredCacheRow]).1.translated_text = "hola" := by
  refine ⟨?_, rfl, rfl, rfl⟩
  intro userId chatId now st r hr
  unfold fetchChatContext at hr
  have hr' := List.mem_of_mem_take hr
  rw [mem_stableSortBy] at hr'
  have hp := (List.mem_filter.mp hr').2
  simp only [Bool.and_eq_true] at hp
  obtain ⟨-, hexp⟩ := hp
  cases he : r.expires_at with
  | none => exact Or.inl rfl
  | some e =>
    rw [he] at hexp
    exact Or.inr ⟨e, rfl, of_decide_eq_true hexp⟩

theorem context_expiry_filters_witness :
    liveChatRow ∈ fetchChatContext "u1" "c1" 0 [liveChatRow] ∧
    (liveChatRow.expires_at = none ∨
      ∃ e, liveChatRow.expires_at = some e ∧ (0 : ℤ) ≤ e) := by
  have hm : liveChatRow ∈ fetchChatContext "u1" "c1" 0 [liveChatRow] := by
    rw [show fetchChatContext "u1" "c1" 0 [liveChatRow] = [liveChatRow]
      from rfl]
    exact List.mem_singleton.mpr rfl
  exact ⟨hm, context_expiry_filters.1 "u1" "c1" 0 [liveChatRow] liveChatRow hm⟩

/-- C8 (counterexample): a create call whose start time is after its end
time succeeds unchallenged — the placeholder `createMeeting` stores start 200
and end 100 exactly as given, so the start-strictly-before-end invariant is
not enforced on create. -/
theorem meeting_create_unvalidated_counterexample :
    (createMeeting ⟨"t", none, "o", [], 200, 100, "UTC", none, none, false⟩
        0).start_time = 200 ∧
    (createMeeting ⟨"t", none, "o", [], 200, 100, "UTC", none, none, false⟩
        0).end_time = 100 ∧
    ¬((createMeeting ⟨"t", none, "o", [], 200, 100, "UTC", none, none, false⟩
        0).start_time <
      (createMeeting ⟨"t", none, "o", [], 200, 100, "UTC", none, none, false⟩
        0).end_time) :=
  ⟨rfl, rfl, by decide⟩

/-- C8 (amended): the start-strictly-before-end invariant is enforced only on
update — createMeeting is a placeholder that echoes the input start and end
times with no validation — and the update validation uses the effective
start/end (provided value where given, existing value otherwise), so an
update providing only a start time at or past the existing end, or only an
end time at or before the existing start, fails with a validation error and
leaves the table unchanged. -/
theorem meeting_start_before_end_enforced :
    (∀ (input : CreateMeetingInput) (now : ℤ),
      (createMeeting input now).start_time = input.start_time ∧
      (createMeeting input now).end_time = input.end_time ∧
      (createMeeting input now).status = MeetingStatus.scheduled) ∧
    (∀ (input : UpdateMeetingInput) (now : ℤ) (st : List Meeting)
        (m : Meeting),
      (st.filter fun x => x.id == input.id).head? = some m →
      input.start_time.getD m.start_time ≥ input.end_time.getD m.end_time →
      (updateMeeting input now st).1 =
        Except.error "Meeting start time must be before end time" ∧
      (updateMeeting input now st).2 = st) ∧
    (∀ (id : String) (s now : ℤ) (st : List Meeting) (m : Meeting),
      (st.filter fun x => x.id == id).head? = some m →
      m.end_time ≤ s →
      (updateMeeting ⟨id, none, none, some s, none, none, none, none⟩ now
          st).1 =
        Except.error "Meeting start time must be before end time" ∧
      (updateMeeting ⟨id, none, none, some s, none, none, none, none⟩ now
          st).2 = st) ∧
    (∀ (id : String) (e now : ℤ) (st : List Meeting) (m : Meeting),
      (st.filter fun x => x.id == id).head? = some m →
      e ≤ m.start_time →
      (updateMeeting ⟨id, none, none, none, some e, none, none, none⟩ now
          st).1 =
        Except.error "Meeting start time must be before end time" ∧
      (updateMeeting ⟨id, none, none, none, some e, none, none, none⟩ now
          st).2 = st) := by
  have hupd : ∀ (input : UpdateMeetingInput) (now : ℤ) (st : List Meeting)
      (m : Meeting),
      (st.filter fun x => x.id == input.id).head? = some m →
      input.start_time.getD m.start_time ≥ input.end_time.getD m.end_time →
      (updateMeeting input now st).1 =
        Except.error "Meeting start time must be before end time" ∧
      (updateMeeting input now st).2 = st := by
    intro input now st m hfind hge
    simp only [updateMeeting, hfind]
    rw [if_pos hge]
    exact ⟨rfl, rfl⟩
  refine ⟨?_, hupd, ?_, ?_⟩
  · intro input now
    exact ⟨rfl, rfl, rfl⟩
  · intro id s now st m hfind hle
    exact hupd ⟨id, none, none, some s, none, none, none, none⟩ now st m
      hfind hle
  · intro id e now st m hfind hle
    exact hupd ⟨id, none, none, none, some e, none, none, none⟩ now st m
      hfind hle

/-- A stored meeting used to exercise the update validation. -/
def witnessMeeting : Meeting :=
  { id := "m1"
    title := "t"
    description := none
    organizer_id := "o"
    participants := []
    start_time := 100
    end_time := 200
    timezone := "UTC"
    meeting_url := none
    chat_id := none
    ai_suggested := false
    status := MeetingStatus.scheduled
    created_at := 0
    updated_at := 0 }

theorem meeting_start_before_end_enforced_witness :
    (createMeeting ⟨"t", none, "o", [], 300, 100, "UTC", none, none, false⟩
        0).start_time = 300 ∧
    (updateMeeting ⟨"m1", none, none, some 250, none, none, none, none⟩ 5
        [witnessMeeting]).1 =
      Except.error "Meeting start time must be before end time" ∧
    (updateMeeting ⟨"m1", none, none, some 250, none, none, none, none⟩ 5
        [witnessMeeting]).2 = [witnessMeeting] := by
  refine ⟨(meeting_start_before_end_enforced.1
    ⟨"t", none, "o", [], 300, 100, "UTC", none, none, false⟩ 0).1, ?_⟩
  exact meeting_start_before_end_enforced.2.2.1 "m1" 250 5 [witnessMeeting]
    witnessMeeting rfl (by decide)

/-! ### Lemmas and theorems for claim C10 -/

lemma textualContents_eq {msgs₁ msgs₂ : List MsgRec}
    (h : List.Forall₂ sameVisible msgs₁ msgs₂) :
    textualContents msgs₁ = textualContents msgs₂ := by
  induction h with
  | nil => rfl
  | cons h₁ h₂ ih =>
    rename_i a₁ a₂ l₁ l₂
    obtain ⟨ht, hs, hc, himp⟩ := h₁
    simp only [textualContents, List.filter_cons] at *
    rw [ht]
    by_cases hcond : (a₂.message_type == MessageType.text ||
        a₂.message_type == MessageType.ai_suggestion) = true
    · rw [if_pos hcond, if_pos hcond]
      simp only [List.map_cons]
      have hdisj : a₁.message_type = MessageType.text ∨
          a₁.message_type = MessageType.ai_suggestion := by
        rw [ht]
        simpa [Bool.or_eq_true, beq_iff_eq] using hcond
      rw [himp hdisj, ih]
    · rw [if_neg hcond, if_neg hcond]
      exact ih

/-- C10: the summarizer feeds only the contents of `text` and `ai_suggestion`
messages to its analyzers — two message lists agreeing on types, senders and
times, and on the contents of textual messages, but possibly differing in the
contents of voice, image or file messages, yield identical `key_points`,
`action_items`, `sentiment` and `topics`. -/
theorem summarize_ignores_media_content (stype : SummaryType)
    (msgs₁ msgs₂ : List MsgRec)
    (h : List.Forall₂ sameVisible msgs₁ msgs₂) :
    (summarizeAnalysis stype msgs₁).key_points =
      (summarizeAnalysis stype msgs₂).key_points ∧
    (summarizeAnalysis stype msgs₁).action_items =
      (summarizeAnalysis stype msgs₂).action_items ∧
    (summarizeAnalysis stype msgs₁).sentiment =
      (summarizeAnalysis stype msgs₂).sentiment ∧
    (summarizeAnalysis stype msgs₁).topics =
      (summarizeAnalysis stype msgs₂).topics := by
  have hlen := h.length_eq
  by_cases h0 : msgs₁.length = 0
  · have h0' : msgs₂.length = 0 := by rw [← hlen]; exact h0
    simp only [summarizeAnalysis, if_pos h0, if_pos h0']
    refine ⟨?_, ?_, ?_, ?_⟩ <;> trivial
  · have h0' : ¬ msgs₂.length = 0 := by rw [← hlen]; exact h0
    have hct := textualContents_eq h
    simp only [summarizeAnalysis, if_neg h0, if_neg h0', hct]
    refine ⟨?_, ?_, ?_, ?_⟩ <;> trivial

theorem summarize_ignores_media_content_witness :
    (summarizeAnalysis SummaryType.brief
        [⟨"hello there", MessageType.text, "al", 0⟩,
         ⟨"VOICE-A", MessageType.voice, "bo", 1⟩]).key_points =
      (summarizeAnalysis SummaryType.brief
        [⟨"hello there", MessageType.text, "al", 0⟩,
         ⟨"VOICE-B", MessageType.voice, "bo", 1⟩]).key_points ∧
    (summarizeAnalysis SummaryType.brief
        [⟨"hello there", MessageType.text, "al", 0⟩,
         ⟨"VOICE-A", MessageType.voice, "bo", 1⟩]).action_items =
      (summarizeAnalysis SummaryType.brief
        [⟨"hello there", MessageType.text, "al", 0⟩,
         ⟨"VOICE-B", MessageType.voice, "bo", 1⟩]).action_items ∧
    (summarizeAnalysis SummaryType.brief
        [⟨"hello there", MessageType.text, "al", 0⟩,
         ⟨"VOICE-A", MessageType.voice, "bo", 1⟩]).sentiment =
      (summarizeAnalysis SummaryType.brief
        [⟨"hello there", MessageType.text, "al", 0⟩,
         ⟨"VOICE-B", MessageType.voice, "bo", 1⟩]).sentiment ∧
    (summarizeAnalysis SummaryType.brief
        [⟨"hello there", MessageType.text, "al", 0⟩,
         ⟨"VOICE-A", MessageType.voice, "bo", 1⟩]).topics =
      (summarizeAnalysis SummaryType.brief
        [⟨"hello there", MessageType.text, "al", 0⟩,
         ⟨"VOICE-B", MessageType.voice, "bo", 1⟩]).topics :=
  summarize_ignores_media_content SummaryType.brief _ _
    (List.Forall₂.cons ⟨rfl, rfl, rfl, fun _ => rfl⟩
      (List.Forall₂.cons ⟨rfl, rfl, rfl, fun hx => absurd hx (by decide)⟩
        List.Forall₂.nil))
